import Mathlib

/-!
Verification of the wapyrus clinical-trials aggregation pipeline
(`scrape_trials.py`, `scrape_eu.py`, `streamlit_app.py`, `cache_utils.py`,
`app.py`, `llm_interface.py`).

The Python sources are shallowly embedded.  JSON values (Python dicts/lists
as held in memory by the scripts) are the inductive type `Json`;
`json.dump(..., indent=4, ensure_ascii=False)` and `json.load` are modelled
as executable functions on character lists, mirroring the CPython `json`
package semantics used by the scripts (indent-4 layout, minimal escaping of
`"`, `\`, and control characters, strict rejection of raw control characters
when reading, dict insertion semantics for object members).  Numbers are
modelled as integers only: no field of a trial record is numeric and no claim
touches floating point, so a fractional or exponent part makes the modelled
scan fail where CPython would produce a float.  Surrogate-pair recombination
of `\uXXXX` escapes is likewise not modelled; the encoder never emits
surrogate escapes.
-/

set_option maxHeartbeats 1600000
set_option maxRecDepth 16384

/-- A Python value as held in memory by the scripts (the result of `json.load`,
or a dict/list literal built by the scraping code). -/
inductive Json where
  | null
  | bool (b : Bool)
  | num (n : Int)
  | str (s : String)
  | arr (xs : List Json)
  | obj (kvs : List (String × Json))
deriving Repr

/-- Lowercase hex digit, as produced by CPython's `'\u%04x' % n`. -/
def hexDigitChar (n : Nat) : Char :=
  if n < 10 then Char.ofNat ('0'.toNat + n) else Char.ofNat ('a'.toNat + (n - 10))

/-- JSON escaping of one character, per CPython `json.encoder` with
`ensure_ascii=False`: backslash, quote and the five named control escapes get
two-character escapes, remaining control characters get `\uXXXX`, and every
other character (ASCII or not) is emitted verbatim. -/
def escChar (c : Char) : List Char :=
  if c = '\\' then ['\\', '\\']
  else if c = '"' then ['\\', '"']
  else if c = '\n' then ['\\', 'n']
  else if c = '\t' then ['\\', 't']
  else if c = '\r' then ['\\', 'r']
  else if c = '\x08' then ['\\', 'b']
  else if c = '\x0c' then ['\\', 'f']
  else if c.toNat < 32 then
    ['\\', 'u', hexDigitChar (c.toNat / 4096 % 16), hexDigitChar (c.toNat / 256 % 16),
      hexDigitChar (c.toNat / 16 % 16), hexDigitChar (c.toNat % 16)]
  else [c]

/-- Escape every character of a string body. -/
def escString : List Char → List Char
  | [] => []
  | c :: cs => escChar c ++ escString cs

/-- A JSON string literal: quote, escaped body, quote. -/
def dumpString (s : String) : List Char :=
  '"' :: (escString s.data ++ ['"'])

/-- The digit character of `n % 10`. -/
def decDigitChar (n : Nat) : Char := Char.ofNat ('0'.toNat + n % 10)

/-- Decimal digits of `n`, most significant first, prepended to `acc`;
`fuel` bounds the digit count (`n + 1` always suffices). -/
def natCharsAux (fuel : Nat) (n : Nat) (acc : List Char) : List Char :=
  match fuel with
  | 0 => acc
  | fuel + 1 =>
    if n < 10 then decDigitChar n :: acc
    else natCharsAux fuel (n / 10) (decDigitChar n :: acc)

/-- Decimal digits of `n`, most significant first, prepended to `acc`. -/
def natChars (n : Nat) (acc : List Char) : List Char := natCharsAux (n + 1) n acc

/-- CPython integer repr: optional minus sign then decimal digits. -/
def intChars (i : Int) : List Char :=
  (if i < 0 then ['-'] else []) ++ natChars i.natAbs []

/-- The newline-plus-indentation block `json.dump(..., indent=4)` emits before
each array element, object member and closing bracket at nesting level `lvl`. -/
def nlIndent (lvl : Nat) : List Char := '\n' :: List.replicate (4 * lvl) ' '

mutual
/-- `json.dump(data, f, indent=4, ensure_ascii=False)`, as the character list
written for one value at nesting level `lvl`. -/
def dumpJson : Json → Nat → List Char
  | .null, _ => ['n', 'u', 'l', 'l']
  | .bool true, _ => ['t', 'r', 'u', 'e']
  | .bool false, _ => ['f', 'a', 'l', 's', 'e']
  | .num n, _ => intChars n
  | .str s, _ => dumpString s
  | .arr [], _ => ['[', ']']
  | .arr (x :: xs), lvl =>
      '[' :: (nlIndent (lvl + 1) ++ dumpJson x (lvl + 1) ++ dumpArrRest xs (lvl + 1)
        ++ nlIndent lvl ++ [']'])
  | .obj [], _ => ['\x7b', '\x7d']
  | .obj ((k, v) :: kvs), lvl =>
      '\x7b' :: (nlIndent (lvl + 1) ++ dumpString k ++ ':' :: ' ' :: dumpJson v (lvl + 1)
        ++ dumpObjRest kvs (lvl + 1) ++ nlIndent lvl ++ ['\x7d'])

/-- Second and later array elements, each preceded by `",\n<indent>"`. -/
def dumpArrRest : List Json → Nat → List Char
  | [], _ => []
  | x :: xs, lvl => ',' :: (nlIndent lvl ++ dumpJson x lvl ++ dumpArrRest xs lvl)

/-- Second and later object members, each preceded by `",\n<indent>"`. -/
def dumpObjRest : List (String × Json) → Nat → List Char
  | [], _ => []
  | (k, v) :: kvs, lvl =>
      ',' :: (nlIndent lvl ++ dumpString k ++ ':' :: ' ' :: dumpJson v lvl ++ dumpObjRest kvs lvl)
end

/-- The full serialized text of `json.dump(data, f, indent=4, ensure_ascii=False)`. -/
def json_dumps (j : Json) : String := String.mk (dumpJson j 0)

/-- The whitespace characters skipped by the CPython JSON decoder (`' \t\n\r'`). -/
def pyWs (c : Char) : Bool := c = ' ' || c = '\t' || c = '\n' || c = '\r'

/-- Skip decoder whitespace. -/
def skipWs : List Char → List Char
  | [] => []
  | c :: cs => if pyWs c then skipWs cs else c :: cs

/-- Hexadecimal value of a character, if any. -/
def hexVal (c : Char) : Option Nat :=
  if '0' ≤ c ∧ c ≤ '9' then some (c.toNat - '0'.toNat)
  else if 'a' ≤ c ∧ c ≤ 'f' then some (c.toNat - 'a'.toNat + 10)
  else if 'A' ≤ c ∧ c ≤ 'F' then some (c.toNat - 'A'.toNat + 10)
  else none

/-- CPython `py_scanstring` (strict mode), after the opening quote: unescapes
the two-character escapes and `\uXXXX`, rejects raw control characters, stops
at the closing quote. -/
def scanString (acc : List Char) : List Char → Option (String × List Char)
  | [] => none
  | c :: cs =>
    if c = '"' then some (String.mk acc.reverse, cs)
    else if c = '\\' then
      match cs with
      | [] => none
      | e :: cs2 =>
        if e = '"' then scanString ('"' :: acc) cs2
        else if e = '\\' then scanString ('\\' :: acc) cs2
        else if e = '/' then scanString ('/' :: acc) cs2
        else if e = 'b' then scanString ('\x08' :: acc) cs2
        else if e = 'f' then scanString ('\x0c' :: acc) cs2
        else if e = 'n' then scanString ('\n' :: acc) cs2
        else if e = 'r' then scanString ('\r' :: acc) cs2
        else if e = 't' then scanString ('\t' :: acc) cs2
        else if e = 'u' then
          match cs2 with
          | h1 :: h2 :: h3 :: h4 :: cs3 =>
            match hexVal h1, hexVal h2, hexVal h3, hexVal h4 with
            | some a, some b, some c3, some d =>
                scanString (Char.ofNat (((a * 16 + b) * 16 + c3) * 16 + d) :: acc) cs3
            | _, _, _, _ => none
          | _ => none
        else none
    else if c.toNat < 32 then none
    else scanString (c :: acc) cs

/-- Is `c` a decimal digit? -/
def isDig (c : Char) : Bool := '0' ≤ c && c ≤ '9'

/-- Longest digit run at the head of the input. -/
def spanDigits : List Char → List Char × List Char
  | [] => ([], [])
  | c :: cs => if isDig c then let p := spanDigits cs; (c :: p.1, p.2) else ([], c :: cs)

/-- The number denoted by a digit run. -/
def digitsToNat (ds : List Char) : Nat :=
  ds.foldl (fun a c => a * 10 + (c.toNat - '0'.toNat)) 0

/-- The integer part of CPython's `NUMBER_RE`: `0`, or a nonzero digit followed
by more digits (no leading zeros). -/
def scanUInt : List Char → Option (Nat × List Char)
  | [] => none
  | c :: cs =>
    if c = '0' then some (0, cs)
    else if isDig c then
      let p := spanDigits cs
      some (digitsToNat (c :: p.1), p.2)
    else none

/-- A JSON number token.  A following `.`/`e`/`E` would make CPython build a
float, which this model does not cover, so the scan fails there instead. -/
def scanNumber (cs : List Char) : Option (Int × List Char) :=
  let sgn : Bool := match cs with | '-' :: _ => true | _ => false
  let cs1 := match cs with | '-' :: r => r | _ => cs
  match scanUInt cs1 with
  | none => none
  | some (n, r) =>
    match r with
    | [] => some (if sgn then -(n : Int) else (n : Int), [])
    | c :: _ =>
      if c = '.' ∨ c = 'e' ∨ c = 'E' then none
      else some (if sgn then -(n : Int) else (n : Int), r)

/-- Dict insertion `d[k] = v`: replace in place if the key exists, else append. -/
def dictSet : List (String × Json) → String → Json → List (String × Json)
  | [], k, v => [(k, v)]
  | (k0, v0) :: rest, k, v =>
    if k0 = k then (k0, v) :: rest else (k0, v0) :: dictSet rest k v

mutual
/-- CPython `scanner.py_make_scanner` `_scan_once`: one JSON value, with fuel
for termination (any fuel beyond the input length is enough). -/
def scanValue (fuel : Nat) (cs : List Char) : Option (Json × List Char) :=
  match fuel with
  | 0 => none
  | fuel + 1 =>
    match skipWs cs with
    | '"' :: r => (scanString [] r).map (fun p => (Json.str p.1, p.2))
    | '\x7b' :: r => scanObject fuel r
    | '[' :: r => scanArray fuel r
    | 'n' :: 'u' :: 'l' :: 'l' :: r => some (.null, r)
    | 't' :: 'r' :: 'u' :: 'e' :: r => some (.bool true, r)
    | 'f' :: 'a' :: 'l' :: 's' :: 'e' :: r => some (.bool false, r)
    | cs2 => (scanNumber cs2).map (fun p => (Json.num p.1, p.2))

/-- `JSONArray` after the opening bracket. -/
def scanArray (fuel : Nat) (cs : List Char) : Option (Json × List Char) :=
  match fuel with
  | 0 => none
  | fuel + 1 =>
    match skipWs cs with
    | ']' :: r => some (.arr [], r)
    | cs2 => scanArrItems fuel cs2 []

/-- The `JSONArray` element loop. -/
def scanArrItems (fuel : Nat) (cs : List Char) (acc : List Json) :
    Option (Json × List Char) :=
  match fuel with
  | 0 => none
  | fuel + 1 =>
    match scanValue fuel cs with
    | none => none
    | some (v, r) =>
      match skipWs r with
      | ',' :: r2 => scanArrItems fuel r2 (acc ++ [v])
      | ']' :: r2 => some (.arr (acc ++ [v]), r2)
      | _ => none

/-- `JSONObject` after the opening brace. -/
def scanObject (fuel : Nat) (cs : List Char) : Option (Json × List Char) :=
  match fuel with
  | 0 => none
  | fuel + 1 =>
    match skipWs cs with
    | '\x7d' :: r => some (.obj [], r)
    | cs2 => scanObjItems fuel cs2 []

/-- The `JSONObject` member loop; members land in a dict, so a repeated key
overwrites in place (`dictSet`). -/
def scanObjItems (fuel : Nat) (cs : List Char) (acc : List (String × Json)) :
    Option (Json × List Char) :=
  match fuel with
  | 0 => none
  | fuel + 1 =>
    match skipWs cs with
    | '"' :: r =>
      match scanString [] r with
      | none => none
      | some (k, r1) =>
        match skipWs r1 with
        | ':' :: r2 =>
          match scanValue fuel r2 with
          | none => none
          | some (v, r3) =>
            match skipWs r3 with
            | ',' :: r4 => scanObjItems fuel r4 (dictSet acc k v)
            | '\x7d' :: r4 => some (.obj (dictSet acc k v), r4)
            | _ => none
        | _ => none
    | _ => none
end

/-- CPython `json.loads` / `json.load`: scan one document, then require that
only whitespace remains ("Extra data" otherwise); `none` models the
`JSONDecodeError` raised on malformed input. -/
def json_loads (s : String) : Option Json :=
  match scanValue (s.data.length + 1) s.data with
  | some (j, r) => if skipWs r = [] then some j else none
  | none => none

/-! ### Well-formed collection values

The scripts only ever serialize lists of trial-record dicts whose values are
strings.  `stringyB` captures that shape (string leaves, arrays, objects with
distinct keys); the round-trip theorem is proved for every such value. -/

/-- Distinct keys, as a dict built from these pairs has. -/
def keysNodupB : List (String × Json) → Bool
  | [] => true
  | (k, _) :: rest => !(rest.any (fun q => q.1 == k)) && keysNodupB rest

mutual
/-- String leaves only, arrays and objects with distinct keys: the shape of
every value the scripts pass to `json.dump`. -/
def stringyB : Json → Bool
  | .str _ => true
  | .arr xs => stringyListB xs
  | .obj kvs => stringyPairsB kvs && keysNodupB kvs
  | _ => false

def stringyListB : List Json → Bool
  | [] => true
  | x :: xs => stringyB x && stringyListB xs

def stringyPairsB : List (String × Json) → Bool
  | [] => true
  | (_, v) :: kvs => stringyB v && stringyPairsB kvs
end

/-! ### The collection file (Collection Store)

`save_to_json` in `scrape_trials.py` (and its copy in `scrape_eu.py`) writes
with `open(filename, "w")` + `json.dump`; the three loaders are
`load_signals` (streamlit_app.py), `load_signals_cached` (cache_utils.py) and
`load_signals` (app.py). -/

/-- The collection file on disk. -/
inductive FileState where
  | absent
  | content (text : String)
deriving Repr, DecidableEq

/-- A file-system operation performed while saving. -/
inductive FsOp where
  | openTruncate (path : String)
  | writeAll (path : String) (text : String)
  | replace (src dst : String)
deriving Repr, DecidableEq

/-- Is this operation an atomic rename/replace? -/
def FsOp.isReplace : FsOp → Bool
  | .replace _ _ => true
  | _ => false

/-- `save_to_json` (scrape_trials.py 348-355) as its file-system trace:
`open(filename, "w")` truncates the target itself, then the dump writes the
serialization into it.  No temporary file, no rename. -/
def save_to_json_ops (data : Json) (filename : String) : List FsOp :=
  [.openTruncate filename, .writeAll filename (json_dumps data)]

/-- The successive on-disk states of the target while `save_to_json` runs:
truncated-empty right after the open, the full serialization at the end.  A
crash between the two leaves the first state behind. -/
def save_to_json_states (data : Json) : List FileState :=
  [.content "", .content (json_dumps data)]

/-- The final file state of a completed `save_to_json`. -/
def save_to_json (data : Json) : FileState := .content (json_dumps data)

/-- `load_signals` (streamlit_app.py 18-31): missing file → `[]` (with a UI
warning); read/parse error → `[]`; parsed value that is not a list → `[]`. -/
def load_signals : FileState → List Json
  | .absent => []
  | .content s =>
    match json_loads s with
    | some (.arr xs) => xs
    | some _ => []
    | none => []

/-- `load_signals_cached` (cache_utils.py 7-14): the parsed JSON value, or `[]`
on `FileNotFoundError` / `JSONDecodeError` — nothing else is reported. -/
def load_signals_cached : FileState → Json
  | .absent => .arr []
  | .content s =>
    match json_loads s with
    | some j => j
    | none => .arr []

/-- `load_signals` (app.py 4-6): bare `open` + `json.load`, no handler — a
missing file raises `FileNotFoundError`, corrupt content `JSONDecodeError`. -/
def app_load_signals : FileState → Except String Json
  | .absent => .error "FileNotFoundError"
  | .content s =>
    match json_loads s with
    | some j => .ok j
    | none => .error "JSONDecodeError"

/-! ### Records and generic Python-value helpers -/

/-- The canonical record shape every scraper emits (nine string fields). -/
structure TrialRecord where
  id : String
  title : String
  condition : String
  type : String
  status : String
  start_date : String
  completion_date : String
  sponsor : String
  source : String
deriving Repr, DecidableEq

/-- The dict literal `{"id": ..., ..., "source": ...}` for a record. -/
def mkRecord (id title condition ty status start_date completion_date sponsor source : String) :
    Json :=
  .obj [("id", .str id), ("title", .str title), ("condition", .str condition),
    ("type", .str ty), ("status", .str status), ("start_date", .str start_date),
    ("completion_date", .str completion_date), ("sponsor", .str sponsor),
    ("source", .str source)]

/-- A record as the dict the scripts hold in memory and serialize. -/
def TrialRecord.toJson (r : TrialRecord) : Json :=
  mkRecord r.id r.title r.condition r.type r.status r.start_date r.completion_date
    r.sponsor r.source

/-- First-match association lookup (the scripts' dicts have distinct keys). -/
def lookupKey : List (String × Json) → String → Option Json
  | [], _ => none
  | (k0, v) :: kvs, k => if k0 = k then some v else lookupKey kvs k

/-- Python truthiness of a JSON value. -/
def jTruthy : Json → Bool
  | .null => false
  | .bool b => b
  | .num n => n != 0
  | .str s => s != ""
  | .arr xs => !xs.isEmpty
  | .obj kvs => !kvs.isEmpty

/-- `d[k]` on a record dict (the callers only index keys that are present). -/
def jVal (t : Json) (k : String) : Json :=
  match t with
  | .obj kvs => (lookupKey kvs k).getD .null
  | _ => .null

mutual
/-- Structural equality, as Python `==` on the scalar values compared by the
scripts (the only containers ever compared are built by the same code path,
so the order-insensitivity of dict equality is not exercised). -/
def jsonBeq : Json → Json → Bool
  | .null, .null => true
  | .bool a, .bool b => a == b
  | .num a, .num b => a == b
  | .str a, .str b => a == b
  | .arr a, .arr b => jsonBeqList a b
  | .obj a, .obj b => jsonBeqPairs a b
  | _, _ => false

def jsonBeqList : List Json → List Json → Bool
  | [], [] => true
  | a :: as2, b :: bs => jsonBeq a b && jsonBeqList as2 bs
  | _, _ => false

def jsonBeqPairs : List (String × Json) → List (String × Json) → Bool
  | [], [] => true
  | (ka, va) :: as2, (kb, vb) :: bs => ka == kb && jsonBeq va vb && jsonBeqPairs as2 bs
  | _, _ => false
end

/-- Substring test, Python `needle in hay` over characters. -/
def containsSub (needle : List Char) : List Char → Bool
  | [] => needle.isEmpty
  | c :: cs => needle.isPrefixOf (c :: cs) || containsSub needle cs

/-- One pass of Python `str.strip()`: drop leading whitespace. -/
def pyStripAux : List Char → List Char
  | [] => []
  | c :: cs =>
    if c = ' ' ∨ c = '\t' ∨ c = '\n' ∨ c = '\r' ∨ c = '\x0b' ∨ c = '\x0c'
    then pyStripAux cs else c :: cs

/-- Python `str.strip()`: whitespace removed from both ends. -/
def pyStrip (s : String) : String :=
  String.mk (pyStripAux (pyStripAux s.data.reverse).reverse)

/-- Python `needle in hay` on strings. -/
def strContains (hay needle : String) : Bool := containsSub needle.data hay.data

/-- Python `str.title()` (ASCII letters; the keywords used are ASCII): the
first letter after a non-letter is uppercased, later letters lowercased. -/
def pyTitleAux : Bool → List Char → List Char
  | _, [] => []
  | prevAlpha, c :: cs =>
    if c.isAlpha then
      (if prevAlpha then c.toLower else c.toUpper) :: pyTitleAux true cs
    else c :: pyTitleAux false cs

/-- Python `str.title()`. -/
def pyTitle (s : String) : String := String.mk (pyTitleAux false s.data)

/-- Python `"%04d" % n` for a natural number. -/
def zfill4 (n : Nat) : String :=
  let s := toString n
  String.mk (List.replicate (4 - s.length) '0') ++ s

/-! ### Registry Client B — `scrape_eu.py` -/

/-- A parsed `div.result` element of the EU CTR search page, reduced to the
stripped text of its first `h3` and first `a` descendants (as
`element.find('h3')` / `element.find('a')` / `get_text(strip=True)` see it);
`none` when the element has no such descendant. -/
structure EuElement where
  h3 : Option String
  a : Option String
deriving Repr, DecidableEq

/-- Outcome of the single `requests.get` against the EU CTR search page:
either a network-level failure (`requests.RequestException`) or the parsed
page, reduced to its `div.result` elements. -/
inductive EuFetch where
  | netError
  | page (elems : List EuElement)
deriving Repr

/-- `normalize_trial_data` (scrape_eu.py 238-250): reads the *sample-data*
schema keys (`eudraCTId`, `publicTitle`, `studyType`, `startDate`,
`completionDate`, `mainSponsor`, plus `condition` and `status`) with the
defaults of the source. -/
def normalize_trial_data (raw : List (String × Json)) : Json :=
  .obj [
    ("id", (lookupKey raw "eudraCTId").getD (.str "")),
    ("title", (lookupKey raw "publicTitle").getD (.str "Unknown EU Trial")),
    ("condition", (lookupKey raw "condition").getD (.str "")),
    ("type", (lookupKey raw "studyType").getD (.str "Interventional")),
    ("status", (lookupKey raw "status").getD (.str "Unknown")),
    ("start_date", (lookupKey raw "startDate").getD (.str "")),
    ("completion_date", (lookupKey raw "completionDate").getD (.str "")),
    ("sponsor", (lookupKey raw "mainSponsor").getD (.str "")),
    ("source", .str "EU Clinical Trials Register")]

/-- The title extracted for one element (scrape_eu.py 82-83):
`element.find('h3') or element.find('a')`, its stripped text, else the
keyword placeholder. -/
def euElementTitle (keyword : String) (e : EuElement) : String :=
  match e.h3 with
  | some t => t
  | none =>
    match e.a with
    | some t => t
    | none => "EU Trial for " ++ keyword

/-- The dict built for one result element (scrape_eu.py 86-96): a synthesized
id `EU-%04d-<KEYW>`, the extracted title, the title-cased keyword as the
condition, and fixed placeholders. -/
def euScrapedTrial (keyword : String) (count : Nat) (title : String) :
    List (String × Json) :=
  [("id", .str ("EU-" ++ zfill4 (count + 1) ++ "-" ++ (keyword.take 4).toUpper)),
   ("title", .str title),
   ("condition", .str (pyTitle keyword)),
   ("type", .str "Interventional"),
   ("status", .str "Unknown"),
   ("start_date", .str ""),
   ("completion_date", .str ""),
   ("sponsor", .str "EU Sponsor"),
   ("source", .str "EU Clinical Trials Register")]

/-- The element loop (scrape_eu.py 79-101) over the first ten elements;
`count` is `len(trials)` so far. -/
def euScrapeLoop (keyword : String) : List EuElement → Nat → List (List (String × Json))
  | [], _ => []
  | e :: es, count =>
      euScrapedTrial keyword count (euElementTitle keyword e)
        :: euScrapeLoop keyword es (count + 1)

/-- `attempt_real_eu_scraping` (scrape_eu.py 47-115): a network failure is
re-raised (`raise` in both `except` arms); otherwise the scraped dicts of the
first ten `div.result` elements are re-normalized through
`normalize_trial_data` and returned (`[]` when no element was found). -/
def attempt_real_eu_scraping (keyword : String) (fetch : EuFetch) :
    Except String (List Json) :=
  match fetch with
  | .netError => .error "Network error accessing EU CTR"
  | .page elems =>
      .ok ((euScrapeLoop keyword (elems.take 10) 0).map (fun t => normalize_trial_data t))

/-- What `normalize_trial_data` leaves of every scraped element dict: the
scraped keys do not match the sample schema, so only `condition` and `status`
survive and every returned record is this keyword-derived placeholder. -/
def euProdRecord (keyword : String) : Json :=
  mkRecord "" "Unknown EU Trial" (pyTitle keyword) "Interventional" "Unknown" "" "" ""
    "EU Clinical Trials Register"

/-- A raw sample-data entry (the schema `normalize_trial_data` expects). -/
def euRaw (eudraCTId publicTitle condition studyType status startDate completionDate
    mainSponsor : String) : List (String × Json) :=
  [("eudraCTId", .str eudraCTId), ("publicTitle", .str publicTitle),
   ("condition", .str condition), ("studyType", .str studyType), ("status", .str status),
   ("startDate", .str startDate), ("completionDate", .str completionDate),
   ("mainSponsor", .str mainSponsor)]

/-- The eight base entries of `get_comprehensive_eu_sample_data` (scrape_eu.py 120-201). -/
def eu_base_trials : List (List (String × Json)) :=
  [euRaw "2023-001234-56" "Multicenter Clinical Investigation of Novel Cardiac Ablation Catheter for Atrial Fibrillation" "Paroxysmal Atrial Fibrillation" "Interventional" "Ongoing" "2023-03-15" "2025-12-31" "European Cardiovascular Research Institute",
   euRaw "2023-002345-67" "Post-Market Clinical Follow-up Study of Next-Generation Drug-Eluting Coronary Stent System" "Coronary Artery Disease, Ischemic Heart Disease" "Observational" "Active, not recruiting" "2022-11-01" "2024-10-31" "EuroVascular Medical",
   euRaw "2024-001456-78" "Prospective Study of AI-Based Software for Automated Detection of Diabetic Retinopathy" "Diabetic Retinopathy, Diabetes Mellitus" "Diagnostic" "Recruiting" "2024-01-20" "2026-06-30" "MedTech AI Solutions GmbH",
   euRaw "2023-003567-89" "Clinical Evaluation of Wearable Continuous Vital Signs Monitoring System for Hospitalized Patients" "Patient Monitoring, Hospitalized Patients" "Interventional" "Completed" "2021-09-01" "2023-08-31" "EuroCare Monitoring Systems",
   euRaw "2024-002678-90" "Randomized Controlled Trial of Robotic-Assisted Surgical System for Prostatectomy" "Prostate Cancer, Localized Prostate Neoplasms" "Interventional" "Not yet recruiting" "2024-06-01" "2027-05-31" "European Urological Robotics Foundation",
   euRaw "2023-004789-01" "Multicenter Study of Novel Bioabsorbable Scaffold for Coronary Revascularization" "Coronary Artery Stenosis, Myocardial Ischemia" "Interventional" "Ongoing" "2023-08-01" "2026-07-31" "BioScaffold Europe Ltd.",
   euRaw "2024-003890-12" "Clinical Performance Study of Smart Insulin Delivery System with Closed-Loop Control" "Type 1 Diabetes, Insulin-Dependent Diabetes" "Interventional" "Recruiting" "2024-02-15" "2025-12-31" "Diabetes Technology Europe",
   euRaw "2023-005901-23" "Post-Market Surveillance of Advanced MRI-Compatible Neuromodulation System" "Parkinson Disease, Essential Tremor" "Observational" "Active, not recruiting" "2022-12-01" "2024-11-30" "NeuroTech Europe SA"]

/-- The keyword-conditional extra entries (scrape_eu.py 204-231). -/
def eu_keyword_trials (keyword : String) : List (List (String × Json)) :=
  (if strContains keyword.toLower "cardiac" then
    [euRaw "2024-004012-34" "Study of Novel Transcatheter Heart Valve System for Aortic Stenosis" "Aortic Valve Stenosis, Structural Heart Disease" "Interventional" "Recruiting" "2024-03-01" "2028-02-28" "CardioStructural Innovations"]
  else []) ++
  (if strContains keyword.toLower "ortho" || strContains keyword.toLower "joint" then
    [euRaw "2024-005123-45" "Clinical Investigation of Patient-Specific 3D-Printed Orthopedic Implants" "Osteoarthritis, Joint Degeneration" "Interventional" "Not yet recruiting" "2024-07-01" "2027-06-30" "OrthoCustom Solutions Europe"]
  else [])

/-- `get_comprehensive_eu_sample_data` (scrape_eu.py 117-236). -/
def get_comprehensive_eu_sample_data (keyword : String) : List Json :=
  (eu_base_trials ++ eu_keyword_trials keyword).map (fun t => normalize_trial_data t)

/-- `fetch_eu_trials` (scrape_eu.py 15-45): empty keyword → `[]`; sample mode →
the sample data; otherwise the real scrape, with every exception (including
the re-raised network failure) caught and turned into `[]`. -/
def fetch_eu_trials (keyword : String) (use_sample : Bool) (fetch : EuFetch) : List Json :=
  if keyword = "" ∨ pyStrip keyword = "" then []
  else if use_sample then get_comprehensive_eu_sample_data keyword
  else
    match attempt_real_eu_scraping keyword fetch with
    | .ok real_trials => if real_trials.isEmpty then [] else real_trials
    | .error _ => []

/-! ### Registry Client A — `scrape_trials.py` -/

/-- Outcome of one `requests.get` against the ClinicalTrials.gov API:
a `requests.RequestException` (network error), a non-2xx response (which
`raise_for_status` turns into the same exception class), or a body. -/
inductive ApiResponse where
  | netError
  | httpError (code : Nat)
  | ok (body : String)
deriving Repr, DecidableEq

/-- Pop the next response from the oracle of successive HTTP responses
(an exhausted oracle behaves as a network error). -/
def nextResp : List ApiResponse → ApiResponse × List ApiResponse
  | [] => (.netError, [])
  | r :: rs => (r, rs)

/-- Python `value.get(key, default)`: `.error ()` models the `AttributeError`
raised when the receiver is not a dict. -/
def pyGet (j : Json) (k : String) (dflt : Json) : Except Unit Json :=
  match j with
  | .obj kvs => .ok ((lookupKey kvs k).getD dflt)
  | _ => .error ()

/-- Python `', '.join(value)`: joins a list of strings (a string joins its
characters, a dict its keys); anything else raises `TypeError`. -/
def joinComma : Json → Except Unit String
  | .arr xs => do
      let strs ← xs.mapM (fun j =>
        match j with
        | .str s => Except.ok s
        | _ => Except.error ())
      pure (String.intercalate ", " strs)
  | .str s => .ok (String.intercalate ", " (s.data.map (fun c => String.mk [c])))
  | .obj kvs => .ok (String.intercalate ", " (kvs.map (fun p => p.1)))
  | _ => .error ()

/-- `process_study_v1` (scrape_trials.py 105-156): field extraction with the
source's defaults; `ok none` is the `return None` for a titleless study,
`error ()` an exception the caller's per-study handler catches. -/
def process_study_v1 (study : Json) : Except Unit (Option Json) := do
  let protocol ← pyGet study "protocolSection" (.obj [])
  let idm ← pyGet protocol "identificationModule" (.obj [])
  let statusm ← pyGet protocol "statusModule" (.obj [])
  let designm ← pyGet protocol "designModule" (.obj [])
  let condm ← pyGet protocol "conditionsModule" (.obj [])
  let sponsorsm ← pyGet protocol "sponsorCollaboratorsModule" (.obj [])
  let nctId ← pyGet idm "nctId" (.str "")
  let briefTitle ← pyGet idm "briefTitle" (.str "")
  let officialTitle ← pyGet idm "officialTitle" (.str "")
  let title := if jTruthy officialTitle then officialTitle else briefTitle
  if jTruthy title then do
    let conditions ← pyGet condm "conditions" (.arr [])
    let conditionStr ← if jTruthy conditions then joinComma conditions else pure ""
    let studyType ← pyGet designm "studyType" (.str "Interventional")
    let overallStatus ← pyGet statusm "overallStatus" (.str "Unknown")
    let sds ← pyGet statusm "startDateStruct" (.obj [])
    let startDate ← if jTruthy sds then pyGet sds "date" (.str "") else pure (Json.str "")
    let cds ← pyGet statusm "completionDateStruct" (.obj [])
    let completionDate ← if jTruthy cds then pyGet cds "date" (.str "") else pure (Json.str "")
    let leadSponsor ← pyGet sponsorsm "leadSponsor" (.obj [])
    let sponsorName ←
      if jTruthy leadSponsor then pyGet leadSponsor "name" (.str "Not specified")
      else pure (Json.str "Not specified")
    pure (some (.obj [("id", nctId), ("title", title), ("condition", .str conditionStr),
      ("type", studyType), ("status", overallStatus), ("start_date", startDate),
      ("completion_date", completionDate), ("sponsor", sponsorName),
      ("source", .str "ClinicalTrials.gov")]))
  else
    pure none

/-- The per-study loop of `fetch_trials` (lines 70-77): a processed record is
appended; an exception or a `None` only skips the study. -/
def processStudies : List Json → List Json
  | [] => []
  | s :: ss =>
    match process_study_v1 s with
    | .ok (some t) => t :: processStudies ss
    | _ => processStudies ss

/-- Python `for` iteration over a JSON value: list elements, characters of a
string, keys of a dict; `none` models the `TypeError` on anything else. -/
def pyIter : Json → Option (List Json)
  | .arr xs => some xs
  | .str s => some (s.data.map (fun c => .str (String.mk [c])))
  | .obj kvs => some (kvs.map (fun p => .str p.1))
  | _ => none

/-- Python `value == 0` for a JSON value (`False == 0` holds). -/
def pyEqZero : Json → Bool
  | .num n => n == 0
  | .bool b => !b
  | _ => false

/-- `get_comprehensive_sample_data` (scrape_trials.py 253-346). -/
def get_comprehensive_sample_data : List Json :=
  [mkRecord "NCT05432193" "Safety and Efficacy of Novel Cardiac Ablation System for Atrial Fibrillation" "Atrial Fibrillation, Cardiac Arrhythmia" "Interventional" "Recruiting" "2023-01-15" "2025-12-31" "CardioInnovate Inc." "ClinicalTrials.gov",
   mkRecord "NCT05328791" "Multicenter Trial of AI-Powered Diagnostic Tool for Early Lung Cancer Detection" "Lung Cancer, Pulmonary Nodules" "Observational" "Active, not recruiting" "2022-06-01" "2024-11-30" "MedAI Diagnostics" "ClinicalTrials.gov",
   mkRecord "NCT05263429" "Randomized Controlled Trial of Robotic-Assisted Knee Replacement System" "Osteoarthritis, Knee Degeneration" "Interventional" "Recruiting" "2023-03-01" "2026-02-28" "OrthoRobotics Corporation" "ClinicalTrials.gov",
   mkRecord "NCT05178234" "Study of Wearable Continuous Glucose Monitoring System with Predictive Alerts" "Diabetes Mellitus, Type 1 Diabetes" "Interventional" "Completed" "2021-09-01" "2023-08-31" "GlucoWatch Technologies" "ClinicalTrials.gov",
   mkRecord "NCT05012345" "Evaluation of Novel Spinal Cord Stimulator for Chronic Pain Management" "Chronic Pain, Neuropathic Pain" "Interventional" "Enrolling by invitation" "2022-11-01" "2024-10-31" "NeuroStim Solutions" "ClinicalTrials.gov",
   mkRecord "NCT04987654" "Feasibility Study of Smart Inhaler with Medication Adherence Monitoring" "Asthma, COPD" "Interventional" "Not yet recruiting" "2024-02-01" "2025-01-31" "RespiraTech Inc." "ClinicalTrials.gov",
   mkRecord "NCT04876543" "Post-Market Surveillance of Next-Generation Coronary Stent System" "Coronary Artery Disease, Myocardial Ischemia" "Observational" "Active, not recruiting" "2021-12-01" "2024-05-31" "Vascular Innovations Ltd." "ClinicalTrials.gov",
   mkRecord "NCT04765432" "Clinical Investigation of AI-Driven Ultrasound for Thyroid Nodule Characterization" "Thyroid Nodule, Thyroid Cancer" "Diagnostic" "Recruiting" "2023-07-01" "2025-06-30" "SonoAI Medical" "ClinicalTrials.gov"]

/-- The search terms of the broad fallback (scrape_trials.py 172-180). -/
def broad_search_terms (keyword : String) : List String :=
  [keyword, "medical device", "MedTech", "implant", "prosthetic", "surgical robot",
   "wearable medical"]

/-- The field patch applied before appending a broad-search record
(scrape_trials.py 219-225): falsy `start_date`/`completion_date` become `""`,
a falsy `sponsor` becomes `"Various"`. -/
def patchBroadTrial (t : Json) : Json :=
  match t with
  | .obj kvs =>
      let kvs1 := if jTruthy ((lookupKey kvs "start_date").getD .null) then kvs
        else dictSet kvs "start_date" (.str "")
      let kvs2 := if jTruthy ((lookupKey kvs1 "completion_date").getD .null) then kvs1
        else dictSet kvs1 "completion_date" (.str "")
      let kvs3 := if jTruthy ((lookupKey kvs2 "sponsor").getD .null) then kvs2
        else dictSet kvs2 "sponsor" (.str "Various")
      .obj kvs3
  | _ => t

/-- The per-study loop of the broad search (lines 215-230): skip records whose
`id` is already present, patch, append; a processing exception skips. -/
def broadStudiesLoop (studies : List Json) (all_trials : List Json) : List Json :=
  match studies with
  | [] => all_trials
  | s :: ss =>
    match process_study_v1 s with
    | .ok (some t) =>
        if all_trials.any (fun t0 => jsonBeq (jVal t0 "id") (jVal t "id")) then
          broadStudiesLoop ss all_trials
        else
          broadStudiesLoop ss (all_trials ++ [patchBroadTrial t])
    | _ => broadStudiesLoop ss all_trials

/-- The term loop of `fetch_trials_broad` (lines 184-240): stop once enough
records are accumulated, make one request per remaining term, and on any
error for a term just continue with the next one. -/
def broadTermsLoop (terms : List String) (max_records : Nat) (acc : List Json)
    (oracle : List ApiResponse) (n : Nat) : List Json × List ApiResponse × Nat :=
  match terms with
  | [] => (acc, oracle, n)
  | _t :: ts =>
    if max_records ≤ acc.length then (acc, oracle, n)
    else
      let p := nextResp oracle
      match p.1 with
      | .netError => broadTermsLoop ts max_records acc p.2 (n + 1)
      | .httpError _ => broadTermsLoop ts max_records acc p.2 (n + 1)
      | .ok body =>
        match json_loads body with
        | none => broadTermsLoop ts max_records acc p.2 (n + 1)
        | some (.obj kvs) =>
          match pyIter ((lookupKey kvs "studies").getD (.arr [])) with
          | none => broadTermsLoop ts max_records acc p.2 (n + 1)
          | some studies =>
              broadTermsLoop ts max_records (broadStudiesLoop studies acc) p.2 (n + 1)
        | some _ => broadTermsLoop ts max_records acc p.2 (n + 1)

/-- `fetch_trials_broad` (scrape_trials.py 162-251), returning the records and
the number of requests performed. -/
def fetch_trials_broad (keyword : String) (max_records : Nat) (use_sample : Bool)
    (oracle : List ApiResponse) : List Json × Nat :=
  if use_sample then (get_comprehensive_sample_data, 0)
  else
    let r := broadTermsLoop (broad_search_terms keyword) max_records [] oracle 0
    if r.1.isEmpty then ([], r.2.2) else (r.1, r.2.2)

/-- `fetch_trials` (scrape_trials.py 13-103), over an oracle of successive
HTTP responses; returns the records together with the number of requests
performed.  A network error, non-2xx status or malformed body of the single
main request returns `[]` at once; a zero `totalCount` or an empty processed
batch falls through to the broad search. -/
def fetch_trials (keyword : String) (max_records : Nat) (use_sample : Bool)
    (oracle : List ApiResponse) : List Json × Nat :=
  if keyword = "" ∨ pyStrip keyword = "" then ([], 0)
  else if use_sample then (get_comprehensive_sample_data, 0)
  else
    let p := nextResp oracle
    match p.1 with
    | .netError => ([], 1)
    | .httpError _ => ([], 1)
    | .ok body =>
      match json_loads body with
      | none => ([], 1)
      | some (.obj kvs) =>
        if pyEqZero ((lookupKey kvs "totalCount").getD (.num 0)) then
          let r := fetch_trials_broad keyword max_records use_sample p.2
          (r.1, r.2 + 1)
        else
          match pyIter ((lookupKey kvs "studies").getD (.arr [])) with
          | none => ([], 1)
          | some studies =>
            let normalized := processStudies studies
            if normalized.isEmpty then
              let r := fetch_trials_broad keyword max_records use_sample p.2
              (r.1, r.2 + 1)
            else (normalized, 1)
      | some _ => ([], 1)

/-! ### The refresh handler and the query layer — `streamlit_app.py` -/

/-- Line 164 of the refresh handler:
`all_trials = clinical_trials_gov_data + eu_trials_data`. -/
def refresh_all_trials (clinical eu : List Json) : List Json := clinical ++ eu

/-- Lines 166-199 of the refresh handler: a non-empty combined list is saved
over `knowledge_base.json`; an empty one shows an error and writes nothing,
leaving the previous file as it was. -/
def refresh_step (old : FileState) (clinical eu : List Json) : FileState :=
  let all_trials := refresh_all_trials clinical eu
  if all_trials.isEmpty then old else save_to_json (.arr all_trials)

/-- A `datetime.date`. -/
structure PyDate where
  year : Nat
  month : Nat
  day : Nat
deriving Repr, DecidableEq

/-- `date` ordering (`<=`), lexicographic on (year, month, day). -/
def PyDate.ble (a b : PyDate) : Bool :=
  a.year < b.year || (a.year == b.year
    && (a.month < b.month || (a.month == b.month && a.day ≤ b.day)))

def isLeapYear (y : Nat) : Bool := y % 4 == 0 && (y % 100 != 0 || y % 400 == 0)

def daysInMonth (y m : Nat) : Nat :=
  if m = 2 then (if isLeapYear y then 29 else 28)
  else if m = 4 ∨ m = 6 ∨ m = 9 ∨ m = 11 then 30
  else 31

def digitVal (c : Char) : Option Nat :=
  if isDig c then some (c.toNat - '0'.toNat) else none

/-- `%Y`: exactly four digits. -/
def parseYear4 : List Char → Option (Nat × List Char)
  | a :: b :: c :: d :: rest => do
      let va ← digitVal a
      let vb ← digitVal b
      let vc ← digitVal c
      let vd ← digitVal d
      pure (((va * 10 + vb) * 10 + vc) * 10 + vd, rest)
  | _ => none

/-- `%m`, the `_strptime` regex `1[0-2]|0[1-9]|[1-9]` (two-digit alternatives
first; no backtracking is needed because a matching two-digit form never
leaves a digit where the format expects a separator). -/
def parseMonthTok : List Char → Option (Nat × List Char)
  | c1 :: c2 :: rest =>
    if c1 = '1' ∧ ('0' ≤ c2 ∧ c2 ≤ '2') then some (10 + (c2.toNat - '0'.toNat), rest)
    else if c1 = '0' ∧ ('1' ≤ c2 ∧ c2 ≤ '9') then some (c2.toNat - '0'.toNat, rest)
    else if '1' ≤ c1 ∧ c1 ≤ '9' then some (c1.toNat - '0'.toNat, c2 :: rest)
    else none
  | [c1] => if '1' ≤ c1 ∧ c1 ≤ '9' then some (c1.toNat - '0'.toNat, []) else none
  | [] => none

/-- `%d`, the `_strptime` regex `3[01]|[12]\d|0[1-9]|[1-9]`. -/
def parseDayTok : List Char → Option (Nat × List Char)
  | c1 :: c2 :: rest =>
    if c1 = '3' ∧ (c2 = '0' ∨ c2 = '1') then some (30 + (c2.toNat - '0'.toNat), rest)
    else if (c1 = '1' ∨ c1 = '2') ∧ isDig c2 then
      some ((c1.toNat - '0'.toNat) * 10 + (c2.toNat - '0'.toNat), rest)
    else if c1 = '0' ∧ ('1' ≤ c2 ∧ c2 ≤ '9') then some (c2.toNat - '0'.toNat, rest)
    else if '1' ≤ c1 ∧ c1 ≤ '9' then some (c1.toNat - '0'.toNat, c2 :: rest)
    else none
  | [c1] => if '1' ≤ c1 ∧ c1 ≤ '9' then some (c1.toNat - '0'.toNat, []) else none
  | [] => none

/-- `datetime.strptime(s, "%Y-%m-%d")` followed by `.date()`: the pattern must
cover the whole string, and the `datetime` constructor validates the day
against the month (and `MINYEAR = 1`). -/
def strptime_Ymd (s : String) : Option PyDate := do
  let py ← parseYear4 s.data
  match py.2 with
  | '-' :: r2 => do
    let pm ← parseMonthTok r2
    match pm.2 with
    | '-' :: r4 => do
      let pd ← parseDayTok r4
      if pd.2 = [] ∧ 1 ≤ py.1 ∧ pd.1 ≤ daysInMonth py.1 pm.1 then
        pure ⟨py.1, pm.1, pd.1⟩
      else none
    | _ => none
  | _ => none

/-- `\s` of the `_strptime` regexes (ASCII). -/
def isPySpace (c : Char) : Bool :=
  c = ' ' || c = '\t' || c = '\n' || c = '\r' || c = '\x0b' || c = '\x0c'

def dropPySpace : List Char → List Char
  | [] => []
  | c :: cs => if isPySpace c then dropPySpace cs else c :: cs

/-- The English month names matched by `%B` (case-insensitively). -/
def monthNames : List (String × Nat) :=
  [("january", 1), ("february", 2), ("march", 3), ("april", 4), ("may", 5), ("june", 6),
   ("july", 7), ("august", 8), ("september", 9), ("october", 10), ("november", 11),
   ("december", 12)]

def findMonth : List (String × Nat) → List Char → Option (Nat × List Char)
  | [], _ => none
  | (nm, m) :: rest, cs =>
    if nm.data.isPrefixOf (cs.map Char.toLower) then some (m, cs.drop nm.length)
    else findMonth rest cs

/-- `datetime.strptime(s, "%B %Y").date()`: a month name, whitespace, a
four-digit year, nothing else; the day defaults to 1. -/
def strptime_BY (s : String) : Option PyDate :=
  match findMonth monthNames s.data with
  | none => none
  | some (m, r1) =>
    match r1 with
    | c :: r2 =>
      if isPySpace c then
        match parseYear4 (dropPySpace r2) with
        | some (y, []) => if 1 ≤ y then some ⟨y, m, 1⟩ else none
        | _ => none
      else none
    | [] => none

/-- Takes `s.split("T")[0]`. -/
def headSplitT (s : String) : String :=
  match s.splitOn "T" with
  | t :: _ => t
  | [] => s

/-- The parse attempt of `filter_signals` (streamlit_app.py 62-67): ISO form
when the string contains a dash, else `"%B %Y"`. -/
def parse_signal_date (sd : String) : Option PyDate :=
  if sd.contains '-' then strptime_Ymd (headSplitT sd) else strptime_BY sd

/-- One record's fate in the date-range loop (lines 59-76): `none` means the
record is included unconditionally (date absent/falsy, of a non-string type —
where `"-" in signal_date` raises and the bare `except` includes it — or
unparseable); `some d` means it is included iff `lo ≤ d ≤ hi`. -/
def signal_date_decision (kvs : List (String × Json)) : Option PyDate :=
  let sd := (lookupKey kvs "start_date").getD (.str "")
  if jTruthy sd then
    match sd with
    | .str str => parse_signal_date str
    | _ => none
  else none

/-- Whether the date-range loop keeps a record. -/
def dateKeep (lo hi : PyDate) (kvs : List (String × Json)) : Bool :=
  match signal_date_decision kvs with
  | none => true
  | some d => lo.ble d && d.ble hi

/-- The date-range loop (lines 58-77); `none` models the exception raised by
`signal.get` on a non-dict entry, which the handler at line 78 turns into
"keep the pre-date list". -/
def dateStage (lo hi : PyDate) : List Json → Option (List Json)
  | [] => some []
  | s :: ss =>
    match s with
    | .obj kvs =>
        (dateStage lo hi ss).map (fun tail =>
          if dateKeep lo hi kvs then Json.obj kvs :: tail else tail)
    | _ => none

/-- The `type_map` lookup (lines 42-47). -/
def type_map_get (selected_type : String) : String :=
  if selected_type = "Clinical Trial" then "INTERVENTIONAL"
  else if selected_type = "Observational Study" then "OBSERVATIONAL"
  else selected_type

/-- The type filter comprehension (line 48); `none` models an uncaught
exception (non-dict entry, or a non-string `type` value). -/
def typeStage (target : String) : List Json → Option (List Json)
  | [] => some []
  | s :: ss =>
    match s with
    | .obj kvs =>
      match (lookupKey kvs "type").getD (.str "") with
      | .str ty =>
          (typeStage target ss).map (fun tail =>
            if strContains ty.toUpper target.toUpper then Json.obj kvs :: tail else tail)
      | _ => none
    | _ => none

/-- The status filter comprehension (line 52). -/
def statusStage (sts : List String) : List Json → Option (List Json)
  | [] => some []
  | s :: ss =>
    match s with
    | .obj kvs =>
      match (lookupKey kvs "status").getD (.str "") with
      | .str st =>
          (statusStage sts ss).map (fun tail =>
            if (sts.map String.toUpper).contains st.toUpper then Json.obj kvs :: tail
            else tail)
      | _ => none
    | _ => none

/-- `filter_signals` (streamlit_app.py 33-81).  `none` is an exception escaping
the function (possible only in the type/status stages); the date stage's own
exceptions are caught at line 78, leaving the list as it was before it. -/
def filter_signals (signals : List Json) (selected_type : String)
    (status_filter : Option (List String)) (date_range : Option (PyDate × PyDate)) :
    Option (List Json) :=
  if signals.isEmpty then some []
  else do
    let f1 ← if selected_type ≠ "All" then typeStage (type_map_get selected_type) signals
      else some signals
    let f2 ←
      match status_filter with
      | some sts => if sts.isEmpty then some f1 else statusStage sts f1
      | none => some f1
    match date_range with
    | some lohi =>
      match dateStage lohi.1 lohi.2 f2 with
      | some res => some res
      | none => some f2
    | none => some f2

/-! ### The LLM wrapper — `llm_interface.py` -/

/-- The Streamlit secrets store as `get_groq_client` probes it. -/
inductive SecretsState where
  | missingKey
  | key (value : String)
deriving Repr, DecidableEq

/-- `get_groq_client` (llm_interface.py 4-14): `KeyError` on the lookup becomes
a `ValueError`, an empty value a second `ValueError`, else a client. -/
def get_groq_client : SecretsState → Except String String
  | .missingKey =>
      .error "GROQ_API_KEY not found in Streamlit secrets. Please check your .streamlit/secrets.toml file."
  | .key v =>
      if v = "" then .error "GROQ_API_KEY is empty in Streamlit secrets" else .ok v

/-- The `signals` argument of `ask_roo`: `None`, some non-list value, or a
list of values. -/
inductive SignalsArg where
  | noneVal
  | nonList
  | listVal (xs : List Json)

/-- The remote chat-completion call: it either raises or replies with text. -/
inductive LlmOutcome where
  | raiseExc (msg : String)
  | reply (text : String)

/-- Python `f"{value}"` for the values the signal formatter meets; container
reprs are abbreviated (no claim exercises them). -/
def pyShow : Json → String
  | .str s => s
  | .num n => toString n
  | .bool true => "True"
  | .bool false => "False"
  | .null => "None"
  | .arr _ => "[...]"
  | .obj _ => "\x7b...\x7d"

/-- One formatted signal line (llm_interface.py 25-29); `.error` models the
`AttributeError` of `.get` on a non-dict entry. -/
def format_signal (s : Json) : Except String String :=
  match s with
  | .obj kvs =>
      .ok ("- " ++ pyShow ((lookupKey kvs "title").getD (.str "Unknown Study")) ++ " by "
        ++ pyShow ((lookupKey kvs "sponsor").getD (.str "Unknown Sponsor")) ++ " ("
        ++ pyShow ((lookupKey kvs "status").getD (.str "Status Unknown")) ++ ")")
  | _ => .error "AttributeError"

/-- The prompt construction (llm_interface.py 20-32): only a truthy list of
signals is formatted and appended. -/
def build_prompt (prompt : String) (signals : SignalsArg) (max_signals : Nat) :
    Except String String :=
  match signals with
  | .listVal xs =>
    if xs.isEmpty then .ok prompt
    else
      match (xs.take max_signals).mapM format_signal with
      | .ok entries =>
          .ok (prompt ++ "\n\nRelevant MedTech trials:\n" ++ String.intercalate "\n" entries)
      | .error m => .error m
  | _ => .ok prompt

/-- The error string produced by the catch-all handler (line 51). -/
def roo_error (msg : String) : String := "❌ Sorry, I encountered an error: " ++ msg

/-- `ask_roo` (llm_interface.py 16-51): client construction, prompt building
and the chat call all sit inside one `try/except Exception` whose handler
returns an apology string carrying the exception text. -/
def ask_roo (secrets : SecretsState) (llm : String → LlmOutcome) (prompt : String)
    (signals : SignalsArg) (max_signals : Nat) : String :=
  match get_groq_client secrets with
  | .error m => roo_error m
  | .ok _ =>
    match build_prompt prompt signals max_signals with
    | .error m => roo_error m
    | .ok p2 =>
      match llm p2 with
      | .raiseExc m => roo_error m
      | .reply t => t

/-! ### Concrete fixtures used by witnesses and counterexamples -/

/-- An existing persisted record with a populated sponsor. -/
def sampleRecOld : Json :=
  mkRecord "X" "Old Trial" "" "Interventional" "Unknown" "" "" "Acme" "ClinicalTrials.gov"

/-- An incoming record with the same id and the placeholder sponsor. -/
def sampleRecNew : Json :=
  mkRecord "X" "New Trial" "" "Interventional" "Unknown" "" "" "Unknown" "ClinicalTrials.gov"

/-- A study payload that processes successfully (title present). -/
def c6GoodStudy : Json :=
  .obj [("protocolSection", .obj [("identificationModule",
    .obj [("nctId", .str "NCT90000001"), ("briefTitle", .str "Retry Would Have Succeeded")])])]

/-- An API body with one processable study. -/
def c6GoodBody : String :=
  json_dumps (.obj [("totalCount", .num 1), ("studies", .arr [c6GoodStudy])])

/-- The record `process_study_v1` extracts from `c6GoodStudy`. -/
def c6GoodRec : Json :=
  mkRecord "NCT90000001" "Retry Would Have Succeeded" "" "Interventional" "Unknown" "" ""
    "Not specified" "ClinicalTrials.gov"

/-- A transient failure of one request, as the spec's taxonomy lists them:
network error, non-2xx status, or a body that is not valid JSON. -/
def transientFailure (r : ApiResponse) : Prop :=
  r = .netError ∨ (∃ c, r = .httpError c) ∨ (∃ b, r = .ok b ∧ json_loads b = none)

/-- A concrete record for round-trip witnesses. -/
def sampleTR : TrialRecord :=
  ⟨"X", "Old Trial", "", "Interventional", "Unknown", "", "", "Acme", "ClinicalTrials.gov"⟩

/-! ### Round-trip lemmas -/

theorem skipWs_ws_append {pre : List Char} (h : ∀ c ∈ pre, pyWs c = true) (cs : List Char) :
    skipWs (pre ++ cs) = skipWs cs := by
  induction pre with
  | nil => rfl
  | cons c p ih =>
      have hc : pyWs c = true := h c (List.mem_cons_self ..)
      simp only [List.cons_append, skipWs, hc, if_true]
      exact ih (fun d hd => h d (List.mem_cons_of_mem _ hd))

theorem skipWs_nonws {c : Char} (h : pyWs c = false) (cs : List Char) :
    skipWs (c :: cs) = c :: cs := by
  simp [skipWs, h]

theorem nlIndent_ws (lvl : Nat) : ∀ c ∈ nlIndent lvl, pyWs c = true := by
  intro c hc
  rcases List.mem_cons.mp hc with rfl | hmem
  · decide
  · rw [List.eq_of_mem_replicate hmem]; decide

theorem skipWs_nlIndent (lvl : Nat) (cs : List Char) :
    skipWs (nlIndent lvl ++ cs) = skipWs cs :=
  skipWs_ws_append (nlIndent_ws lvl) cs

theorem hexVal_hexDigitChar (k : Nat) (hk : k < 16) : hexVal (hexDigitChar k) = some k := by
  interval_cases k <;> decide

theorem scanString_escChar (c : Char) (acc rest : List Char) :
    scanString acc (escChar c ++ rest) = scanString (c :: acc) rest := by
  by_cases h1 : c = '\\'
  · subst h1
    have e : escChar '\\' ++ rest = '\\' :: '\\' :: rest := rfl
    rw [e, scanString.eq_def]; simp
  by_cases h2 : c = '"'
  · subst h2
    have e : escChar '"' ++ rest = '\\' :: '"' :: rest := rfl
    rw [e, scanString.eq_def]; simp
  by_cases h3 : c = '\n'
  · subst h3
    have e : escChar '\n' ++ rest = '\\' :: 'n' :: rest := rfl
    rw [e, scanString.eq_def]; simp
  by_cases h4 : c = '\t'
  · subst h4
    have e : escChar '\t' ++ rest = '\\' :: 't' :: rest := rfl
    rw [e, scanString.eq_def]; simp
  by_cases h5 : c = '\r'
  · subst h5
    have e : escChar '\r' ++ rest = '\\' :: 'r' :: rest := rfl
    rw [e, scanString.eq_def]; simp
  by_cases h6 : c = '\x08'
  · subst h6
    have e : escChar '\x08' ++ rest = '\\' :: 'b' :: rest := rfl
    rw [e, scanString.eq_def]; simp
  by_cases h7 : c = '\x0c'
  · subst h7
    have e : escChar '\x0c' ++ rest = '\\' :: 'f' :: rest := rfl
    rw [e, scanString.eq_def]; simp
  by_cases h8 : c.toNat < 32
  · have e1 : c.toNat / 4096 % 16 = 0 := by omega
    have e2 : c.toNat / 256 % 16 = 0 := by omega
    have e3 : c.toNat / 16 % 16 = c.toNat / 16 := by omega
    have e : escChar c ++ rest = '\\' :: 'u' :: hexDigitChar 0 :: hexDigitChar 0 ::
        hexDigitChar (c.toNat / 16) :: hexDigitChar (c.toNat % 16) :: rest := by
      simp only [escChar, if_neg h1, if_neg h2, if_neg h3, if_neg h4, if_neg h5, if_neg h6,
        if_neg h7, if_pos h8, e1, e2, e3, List.cons_append, List.nil_append]
    have harith : c.toNat / 16 * 16 + c.toNat % 16 = c.toNat := by omega
    rw [e, scanString.eq_def]
    simp [hexVal_hexDigitChar 0 (by omega), hexVal_hexDigitChar (c.toNat / 16) (by omega),
      hexVal_hexDigitChar (c.toNat % 16) (by omega), harith, Char.ofNat_toNat]
  · have e : escChar c ++ rest = c :: rest := by
      simp only [escChar, if_neg h1, if_neg h2, if_neg h3, if_neg h4, if_neg h5, if_neg h6,
        if_neg h7, if_neg h8, List.cons_append, List.nil_append]
    rw [e, scanString.eq_def]
    simp [h1, h2, h8]

theorem scanString_escString (l : List Char) : ∀ (acc rest : List Char),
    scanString acc (escString l ++ '"' :: rest) = some (String.mk (acc.reverse ++ l), rest) := by
  induction l with
  | nil =>
      intro acc rest
      rw [escString, List.nil_append, scanString.eq_def]
      simp
  | cons c l ih =>
      intro acc rest
      rw [escString, List.append_assoc, scanString_escChar, ih]
      simp

theorem scanString_body (s : String) (rest : List Char) :
    scanString [] (escString s.data ++ '"' :: rest) = some (s, rest) := by
  rw [scanString_escString]; rfl

theorem dictSet_append {acc : List (String × Json)} {k : String} (v : Json)
    (h : ∀ p ∈ acc, p.1 ≠ k) : dictSet acc k v = acc ++ [(k, v)] := by
  induction acc with
  | nil => rfl
  | cons p rest ih =>
      obtain ⟨k0, v0⟩ := p
      have hk0 : k0 ≠ k := h (k0, v0) (List.mem_cons_self ..)
      simp only [dictSet, if_neg hk0, List.cons_append, List.cons.injEq, true_and]
      exact ih (fun q hq => h q (List.mem_cons_of_mem _ hq))
theorem nlIndent_length (lvl : Nat) : (nlIndent lvl).length = 1 + 4 * lvl := by
  simp [nlIndent]; omega

theorem dumpJson_head (v : Json) (lvl : Nat) (h : stringyB v = true) :
    ∃ c t, dumpJson v lvl = c :: t ∧ pyWs c = false ∧ c ≠ ']' ∧ c ≠ '\x7d' := by
  cases v with
  | null => simp [stringyB] at h
  | bool b => simp [stringyB] at h
  | num n => simp [stringyB] at h
  | str s => exact ⟨'"', _, rfl, by decide, by decide, by decide⟩
  | arr xs =>
      cases xs with
      | nil => exact ⟨'[', _, rfl, by decide, by decide, by decide⟩
      | cons x xs => exact ⟨'[', _, rfl, by decide, by decide, by decide⟩
  | obj kvs =>
      cases kvs with
      | nil => exact ⟨'\x7b', _, rfl, by decide, by decide, by decide⟩
      | cons kv kvs =>
          obtain ⟨k, v⟩ := kv
          exact ⟨'\x7b', _, rfl, by decide, by decide, by decide⟩

theorem scanValue_ws {pre : List Char} (hp : ∀ c ∈ pre, pyWs c = true) (f : Nat)
    (cs : List Char) : scanValue f (pre ++ cs) = scanValue f cs := by
  cases f with
  | zero => rfl
  | succ g => simp only [scanValue, skipWs_ws_append hp]

theorem scanValue_sp (f : Nat) (cs : List Char) :
    scanValue f (' ' :: cs) = scanValue f cs := by
  have h := @scanValue_ws [' '] (by intro c hc; simp at hc; rw [hc]; rfl) f cs
  simpa using h

theorem scanArrItems_ws {pre : List Char} (hp : ∀ c ∈ pre, pyWs c = true) (f : Nat)
    (cs : List Char) (acc : List Json) :
    scanArrItems f (pre ++ cs) acc = scanArrItems f cs acc := by
  cases f with
  | zero => rfl
  | succ g => simp only [scanArrItems, scanValue_ws hp]

theorem scanObjItems_ws {pre : List Char} (hp : ∀ c ∈ pre, pyWs c = true) (f : Nat)
    (cs : List Char) (acc : List (String × Json)) :
    scanObjItems f (pre ++ cs) acc = scanObjItems f cs acc := by
  cases f with
  | zero => rfl
  | succ g => simp only [scanObjItems, skipWs_ws_append hp]

theorem scanValue_at_quote (f : Nat) (cs : List Char) :
    scanValue (f + 1) ('"' :: cs)
      = (scanString [] cs).map (fun p => (Json.str p.1, p.2)) := rfl

theorem scanValue_at_lbk (f : Nat) (cs : List Char) :
    scanValue (f + 1) ('[' :: cs) = scanArray f cs := rfl

theorem scanValue_at_lbc (f : Nat) (cs : List Char) :
    scanValue (f + 1) ('\x7b' :: cs) = scanObject f cs := rfl

theorem scanArray_at_rbk (f : Nat) (cs : List Char) :
    scanArray (f + 1) (']' :: cs) = some (.arr [], cs) := rfl

theorem scanObject_at_rbc (f : Nat) (cs : List Char) :
    scanObject (f + 1) ('\x7d' :: cs) = some (.obj [], cs) := rfl

theorem scanArrItems_step (f : Nat) (cs : List Char) (acc : List Json) :
    scanArrItems (f + 1) cs acc
      = match scanValue f cs with
        | none => none
        | some (v, r) =>
          match skipWs r with
          | ',' :: r2 => scanArrItems f r2 (acc ++ [v])
          | ']' :: r2 => some (.arr (acc ++ [v]), r2)
          | _ => none := rfl

theorem scanObjItems_at_quote (f : Nat) (cs : List Char) (acc : List (String × Json)) :
    scanObjItems (f + 1) ('"' :: cs) acc
      = match scanString [] cs with
        | none => none
        | some (k, r1) =>
          match skipWs r1 with
          | ':' :: r2 =>
            match scanValue f r2 with
            | none => none
            | some (v, r3) =>
              match skipWs r3 with
              | ',' :: r4 => scanObjItems f r4 (dictSet acc k v)
              | '\x7d' :: r4 => some (.obj (dictSet acc k v), r4)
              | _ => none
          | _ => none := rfl

theorem scanArray_go (f : Nat) {cs : List Char} {c : Char} {t : List Char}
    (h : skipWs cs = c :: t) (hc : c ≠ ']') :
    scanArray (f + 1) cs = scanArrItems f (c :: t) [] := by
  simp only [scanArray, h]
  split
  · rename_i r heq
    injection heq with h1 h2
    exact absurd h1 hc
  · rfl

theorem scanObject_go (f : Nat) {cs : List Char} {c : Char} {t : List Char}
    (h : skipWs cs = c :: t) (hc : c ≠ '\x7d') :
    scanObject (f + 1) cs = scanObjItems f (c :: t) [] := by
  simp only [scanObject, h]
  split
  · rename_i r heq
    injection heq with h1 h2
    exact absurd h1 hc
  · rfl

theorem scanArrItems_comma (f : Nat) (cs : List Char) (acc : List Json) (v : Json)
    {r X : List Char} (hv : scanValue f cs = some (v, r)) (hr : skipWs r = ',' :: X) :
    scanArrItems (f + 1) cs acc = scanArrItems f X (acc ++ [v]) := by
  rw [scanArrItems_step]
  simp [hv, hr]

theorem scanArrItems_close (f : Nat) (cs : List Char) (acc : List Json) (v : Json)
    {r X : List Char} (hv : scanValue f cs = some (v, r)) (hr : skipWs r = ']' :: X) :
    scanArrItems (f + 1) cs acc = some (.arr (acc ++ [v]), X) := by
  rw [scanArrItems_step]
  simp [hv, hr]

theorem scanObjItems_comma (f : Nat) {Y r1 r2 r3 X : List Char}
    (acc : List (String × Json)) {k : String} {v : Json}
    (hk : scanString [] Y = some (k, r1)) (h1 : skipWs r1 = ':' :: r2)
    (hv : scanValue f r2 = some (v, r3)) (h3 : skipWs r3 = ',' :: X) :
    scanObjItems (f + 1) ('"' :: Y) acc = scanObjItems f X (dictSet acc k v) := by
  rw [scanObjItems_at_quote]
  simp [hk, h1, hv, h3]

theorem scanObjItems_close (f : Nat) {Y r1 r2 r3 X : List Char}
    (acc : List (String × Json)) {k : String} {v : Json}
    (hk : scanString [] Y = some (k, r1)) (h1 : skipWs r1 = ':' :: r2)
    (hv : scanValue f r2 = some (v, r3)) (h3 : skipWs r3 = '\x7d' :: X) :
    scanObjItems (f + 1) ('"' :: Y) acc = some (.obj (dictSet acc k v), X) := by
  rw [scanObjItems_at_quote]
  simp [hk, h1, hv, h3]

mutual
theorem rt_val : ∀ (v : Json) (lvl fuel : Nat) (rest : List Char),
    stringyB v = true → (dumpJson v lvl).length < fuel →
    scanValue fuel (dumpJson v lvl ++ rest) = some (v, rest)
  | .null, _, _, _, hs, _ => by simp [stringyB] at hs
  | .bool b, _, _, _, hs, _ => by simp [stringyB] at hs
  | .num n, _, _, _, hs, _ => by simp [stringyB] at hs
  | .str s, lvl, fuel, rest, _, hf => by
      cases fuel with
      | zero => exact absurd hf (Nat.not_lt_zero _)
      | succ f =>
          have harg : dumpJson (.str s) lvl ++ rest
              = '"' :: (escString s.data ++ '"' :: rest) := by
            simp [dumpJson, dumpString]
          rw [harg, scanValue_at_quote, scanString_body]
          rfl
  | .arr [], lvl, fuel, rest, _, hf => by
      cases fuel with
      | zero => exact absurd hf (Nat.not_lt_zero _)
      | succ f =>
          cases f with
          | zero => simp [dumpJson] at hf
          | succ g =>
              have harg : dumpJson (.arr []) lvl ++ rest = '[' :: (']' :: rest) := by
                simp [dumpJson]
              rw [harg, scanValue_at_lbk, scanArray_at_rbk]
  | .obj [], lvl, fuel, rest, _, hf => by
      cases fuel with
      | zero => exact absurd hf (Nat.not_lt_zero _)
      | succ f =>
          cases f with
          | zero => simp [dumpJson] at hf
          | succ g =>
              have harg : dumpJson (.obj []) lvl ++ rest = '\x7b' :: ('\x7d' :: rest) := by
                simp [dumpJson]
              rw [harg, scanValue_at_lbc, scanObject_at_rbc]
  | .arr (x :: xs), lvl, fuel, rest, hs, hf => by
      have hsx : stringyB x = true ∧ stringyListB xs = true := by
        simpa [stringyB, stringyListB, Bool.and_eq_true] using hs
      have hlen : (dumpJson (.arr (x :: xs)) lvl).length
          = 2 + (nlIndent (lvl + 1)).length + (dumpJson x (lvl + 1)).length
            + (dumpArrRest xs (lvl + 1)).length + (nlIndent lvl).length := by
        simp [dumpJson, List.length_append]; omega
      cases fuel with
      | zero => exact absurd hf (Nat.not_lt_zero _)
      | succ f =>
          cases f with
          | zero =>
              rw [hlen, nlIndent_length, nlIndent_length] at hf
              omega
          | succ g =>
              have harg : dumpJson (.arr (x :: xs)) lvl ++ rest
                  = '[' :: (nlIndent (lvl + 1) ++ (dumpJson x (lvl + 1)
                    ++ (dumpArrRest xs (lvl + 1) ++ (nlIndent lvl ++ (']' :: rest))))) := by
                simp [dumpJson, List.append_assoc]
              obtain ⟨c, t, hct, hws, hbr, _⟩ := dumpJson_head x (lvl + 1) hsx.1
              have hskip : skipWs (nlIndent (lvl + 1) ++ (dumpJson x (lvl + 1)
                    ++ (dumpArrRest xs (lvl + 1) ++ (nlIndent lvl ++ (']' :: rest)))))
                  = c :: (t ++ (dumpArrRest xs (lvl + 1) ++ (nlIndent lvl ++ (']' :: rest)))) := by
                rw [skipWs_nlIndent, hct, List.cons_append, skipWs_nonws hws]
              rw [harg, scanValue_at_lbk, scanArray_go g hskip hbr]
              have hback : c :: (t ++ (dumpArrRest xs (lvl + 1) ++ (nlIndent lvl ++ (']' :: rest))))
                  = dumpJson x (lvl + 1) ++ dumpArrRest xs (lvl + 1)
                    ++ nlIndent lvl ++ ']' :: rest := by
                rw [hct]; simp [List.append_assoc]
              rw [hback]
              have hfg : (dumpJson x (lvl + 1)).length
                  + (dumpArrRest xs (lvl + 1)).length + 1 < g := by
                rw [hlen, nlIndent_length, nlIndent_length] at hf
                omega
              have hloop := rt_arr x xs lvl g [] rest hsx.1 hsx.2 hfg
              simpa using hloop
  | .obj ((k, v) :: kvs), lvl, fuel, rest, hs, hf => by
      have hsv : stringyB v = true ∧ stringyPairsB kvs = true
          ∧ keysNodupB ((k, v) :: kvs) = true := by
        have h0 := hs
        simp only [stringyB, stringyPairsB, Bool.and_eq_true] at h0
        exact ⟨h0.1.1, h0.1.2, h0.2⟩
      have hlen : (dumpJson (.obj ((k, v) :: kvs)) lvl).length
          = 2 + (nlIndent (lvl + 1)).length + (dumpString k).length + 2
            + (dumpJson v (lvl + 1)).length + (dumpObjRest kvs (lvl + 1)).length
            + (nlIndent lvl).length := by
        simp [dumpJson, dumpString, List.length_append]; omega
      cases fuel with
      | zero => exact absurd hf (Nat.not_lt_zero _)
      | succ f =>
          cases f with
          | zero =>
              rw [hlen, nlIndent_length, nlIndent_length] at hf
              omega
          | succ g =>
              have harg : dumpJson (.obj ((k, v) :: kvs)) lvl ++ rest
                  = '\x7b' :: (nlIndent (lvl + 1) ++ (dumpString k ++ ':' :: ' '
                    :: (dumpJson v (lvl + 1) ++ (dumpObjRest kvs (lvl + 1)
                      ++ (nlIndent lvl ++ ('\x7d' :: rest)))))) := by
                simp [dumpJson, List.append_assoc]
              have hskip : skipWs (nlIndent (lvl + 1) ++ (dumpString k ++ ':' :: ' '
                    :: (dumpJson v (lvl + 1) ++ (dumpObjRest kvs (lvl + 1)
                      ++ (nlIndent lvl ++ ('\x7d' :: rest))))))
                  = '"' :: (escString k.data ++ ('"' :: (':' :: ' '
                    :: (dumpJson v (lvl + 1) ++ (dumpObjRest kvs (lvl + 1)
                      ++ (nlIndent lvl ++ ('\x7d' :: rest))))))) := by
                rw [skipWs_nlIndent]
                simp only [dumpString, List.cons_append, List.append_assoc,
                  List.singleton_append, List.nil_append]
                rw [skipWs_nonws (show pyWs '"' = false by decide)]
              rw [harg, scanValue_at_lbc, scanObject_go g hskip (by decide)]
              have hfg : (dumpString k).length + (dumpJson v (lvl + 1)).length
                  + (dumpObjRest kvs (lvl + 1)).length + 3 < g := by
                rw [hlen, nlIndent_length, nlIndent_length] at hf
                omega
              have hloop := rt_obj k v kvs lvl g [] rest hsv.1 hsv.2.1 hsv.2.2
                (by intro p hp; simp at hp) hfg
              simpa using hloop
termination_by v _ _ _ _ _ => sizeOf v

theorem rt_arr : ∀ (x : Json) (xs : List Json) (lvl fuel : Nat)
    (acc : List Json) (rest : List Char),
    stringyB x = true → stringyListB xs = true →
    (dumpJson x (lvl + 1)).length + (dumpArrRest xs (lvl + 1)).length + 1 < fuel →
    scanArrItems fuel (dumpJson x (lvl + 1) ++ dumpArrRest xs (lvl + 1)
      ++ nlIndent lvl ++ ']' :: rest) acc = some (.arr (acc ++ x :: xs), rest)
  | x, [], lvl, fuel, acc, rest, hsx, _, hf => by
      cases fuel with
      | zero => exact absurd hf (Nat.not_lt_zero _)
      | succ f =>
          have hval := rt_val x (lvl + 1) f (nlIndent lvl ++ ']' :: rest) hsx (by omega)
          have harg : dumpJson x (lvl + 1) ++ dumpArrRest [] (lvl + 1)
              ++ nlIndent lvl ++ ']' :: rest
              = dumpJson x (lvl + 1) ++ (nlIndent lvl ++ ']' :: rest) := by
            simp [dumpArrRest, List.append_assoc]
          have hr : skipWs (nlIndent lvl ++ ']' :: rest) = ']' :: rest := by
            rw [skipWs_nlIndent, skipWs_nonws (show pyWs ']' = false by decide)]
          rw [harg, scanArrItems_close f _ acc x hval hr]
  | x, y :: ys, lvl, fuel, acc, rest, hsx, hsl, hf => by
      have hsy : stringyB y = true ∧ stringyListB ys = true := by
        simpa [stringyListB, Bool.and_eq_true] using hsl
      have hlen : (dumpArrRest (y :: ys) (lvl + 1)).length
          = 1 + (nlIndent (lvl + 1)).length + (dumpJson y (lvl + 1)).length
            + (dumpArrRest ys (lvl + 1)).length := by
        simp [dumpArrRest, List.length_append]; omega
      cases fuel with
      | zero => exact absurd hf (Nat.not_lt_zero _)
      | succ f =>
          have hval := rt_val x (lvl + 1) f
            (',' :: (nlIndent (lvl + 1) ++ (dumpJson y (lvl + 1)
              ++ (dumpArrRest ys (lvl + 1) ++ (nlIndent lvl ++ (']' :: rest)))))) hsx
            (by rw [hlen, nlIndent_length] at hf; omega)
          have harg : dumpJson x (lvl + 1) ++ dumpArrRest (y :: ys) (lvl + 1)
              ++ nlIndent lvl ++ ']' :: rest
              = dumpJson x (lvl + 1) ++ (',' :: (nlIndent (lvl + 1) ++ (dumpJson y (lvl + 1)
                ++ (dumpArrRest ys (lvl + 1) ++ (nlIndent lvl ++ (']' :: rest)))))) := by
            simp [dumpArrRest, List.append_assoc]
          have hr : skipWs (',' :: (nlIndent (lvl + 1) ++ (dumpJson y (lvl + 1)
              ++ (dumpArrRest ys (lvl + 1) ++ (nlIndent lvl ++ (']' :: rest))))))
              = ',' :: (nlIndent (lvl + 1) ++ (dumpJson y (lvl + 1)
              ++ (dumpArrRest ys (lvl + 1) ++ (nlIndent lvl ++ (']' :: rest))))) :=
            skipWs_nonws (by decide) _
          rw [harg, scanArrItems_comma f _ acc x hval hr,
            scanArrItems_ws (nlIndent_ws (lvl + 1))]
          have hback : dumpJson y (lvl + 1)
              ++ (dumpArrRest ys (lvl + 1) ++ (nlIndent lvl ++ (']' :: rest)))
              = dumpJson y (lvl + 1) ++ dumpArrRest ys (lvl + 1)
                ++ nlIndent lvl ++ ']' :: rest := by
            simp [List.append_assoc]
          rw [hback]
          have hrec := rt_arr y ys lvl f (acc ++ [x]) rest hsy.1 hsy.2
            (by rw [hlen, nlIndent_length] at hf; omega)
          rw [hrec]
          simp
termination_by x xs _ _ _ _ _ _ _ => sizeOf x + sizeOf xs

theorem rt_obj : ∀ (k : String) (v : Json) (kvs : List (String × Json))
    (lvl fuel : Nat) (acc : List (String × Json)) (rest : List Char),
    stringyB v = true → stringyPairsB kvs = true →
    keysNodupB ((k, v) :: kvs) = true →
    (∀ p ∈ acc, ∀ q ∈ (k, v) :: kvs, p.1 ≠ q.1) →
    (dumpString k).length + (dumpJson v (lvl + 1)).length
      + (dumpObjRest kvs (lvl + 1)).length + 3 < fuel →
    scanObjItems fuel ('"' :: (escString k.data ++ ('"' :: (':' :: ' '
      :: (dumpJson v (lvl + 1) ++ (dumpObjRest kvs (lvl + 1)
        ++ (nlIndent lvl ++ ('\x7d' :: rest)))))))) acc
      = some (.obj (acc ++ (k, v) :: kvs), rest)
  | k, v, [], lvl, fuel, acc, rest, hsv, _, _, hdisj, hf => by
      cases fuel with
      | zero => exact absurd hf (Nat.not_lt_zero _)
      | succ f =>
          have hval : scanValue f (' ' :: (dumpJson v (lvl + 1)
              ++ (nlIndent lvl ++ ('\x7d' :: rest))))
              = some (v, nlIndent lvl ++ ('\x7d' :: rest)) := by
            rw [scanValue_sp]
            exact rt_val v (lvl + 1) f _ hsv (by omega)
          have hkey : scanString [] (escString k.data ++ ('"' :: (':' :: ' '
              :: (dumpJson v (lvl + 1) ++ (nlIndent lvl ++ ('\x7d' :: rest))))))
              = some (k, ':' :: ' ' :: (dumpJson v (lvl + 1)
                ++ (nlIndent lvl ++ ('\x7d' :: rest)))) := scanString_body k _
          have h1 : skipWs (':' :: ' ' :: (dumpJson v (lvl + 1)
              ++ (nlIndent lvl ++ ('\x7d' :: rest))))
              = ':' :: (' ' :: (dumpJson v (lvl + 1)
                ++ (nlIndent lvl ++ ('\x7d' :: rest)))) :=
            skipWs_nonws (by decide) _
          have h3 : skipWs (nlIndent lvl ++ ('\x7d' :: rest)) = '\x7d' :: rest := by
            rw [skipWs_nlIndent, skipWs_nonws (show pyWs '\x7d' = false by decide)]
          have hds : dictSet acc k v = acc ++ [(k, v)] :=
            dictSet_append v (fun p hp => hdisj p hp (k, v) (List.mem_cons_self ..))
          have harg : ('"' :: (escString k.data ++ ('"' :: (':' :: ' '
              :: (dumpJson v (lvl + 1) ++ (dumpObjRest [] (lvl + 1)
                ++ (nlIndent lvl ++ ('\x7d' :: rest))))))) : List Char)
              = '"' :: (escString k.data ++ ('"' :: (':' :: ' '
              :: (dumpJson v (lvl + 1) ++ (nlIndent lvl ++ ('\x7d' :: rest)))))) := by
            simp [dumpObjRest]
          rw [harg, scanObjItems_close f acc hkey h1 hval h3, hds]
  | k, v, (k2, v2) :: kvs, lvl, fuel, acc, rest, hsv, hsp, hnd, hdisj, hf => by
      have hsv2 : stringyB v2 = true ∧ stringyPairsB kvs = true := by
        simpa [stringyPairsB, Bool.and_eq_true] using hsp
      have hnd2 : keysNodupB ((k2, v2) :: kvs) = true := by
        simp only [keysNodupB, Bool.and_eq_true] at hnd ⊢
        exact hnd.2
      have hknot : ∀ q ∈ (k2, v2) :: kvs, q.1 ≠ k := by
        simp only [keysNodupB, Bool.and_eq_true, Bool.not_eq_true', List.any_eq_false] at hnd
        intro q hq
        have hq2 := hnd.1 q hq
        simpa using hq2
      have hlen : (dumpObjRest ((k2, v2) :: kvs) (lvl + 1)).length
          = 1 + (nlIndent (lvl + 1)).length + (dumpString k2).length + 2
            + (dumpJson v2 (lvl + 1)).length + (dumpObjRest kvs (lvl + 1)).length := by
        simp [dumpObjRest, dumpString, List.length_append]; omega
      cases fuel with
      | zero => exact absurd hf (Nat.not_lt_zero _)
      | succ f =>
          have hval : scanValue f (' ' :: (dumpJson v (lvl + 1)
              ++ (dumpObjRest ((k2, v2) :: kvs) (lvl + 1)
                ++ (nlIndent lvl ++ ('\x7d' :: rest)))))
              = some (v, dumpObjRest ((k2, v2) :: kvs) (lvl + 1)
                ++ (nlIndent lvl ++ ('\x7d' :: rest))) := by
            rw [scanValue_sp]
            exact rt_val v (lvl + 1) f _ hsv (by rw [hlen, nlIndent_length] at hf; omega)
          have hkey : scanString [] (escString k.data ++ ('"' :: (':' :: ' '
              :: (dumpJson v (lvl + 1) ++ (dumpObjRest ((k2, v2) :: kvs) (lvl + 1)
                ++ (nlIndent lvl ++ ('\x7d' :: rest)))))))
              = some (k, ':' :: ' ' :: (dumpJson v (lvl + 1)
                ++ (dumpObjRest ((k2, v2) :: kvs) (lvl + 1)
                  ++ (nlIndent lvl ++ ('\x7d' :: rest))))) := scanString_body k _
          have h1 : skipWs (':' :: ' ' :: (dumpJson v (lvl + 1)
              ++ (dumpObjRest ((k2, v2) :: kvs) (lvl + 1)
                ++ (nlIndent lvl ++ ('\x7d' :: rest)))))
              = ':' :: (' ' :: (dumpJson v (lvl + 1)
                ++ (dumpObjRest ((k2, v2) :: kvs) (lvl + 1)
                  ++ (nlIndent lvl ++ ('\x7d' :: rest))))) :=
            skipWs_nonws (by decide) _
          have htail : dumpObjRest ((k2, v2) :: kvs) (lvl + 1)
                ++ (nlIndent lvl ++ ('\x7d' :: rest))
              = ',' :: (nlIndent (lvl + 1) ++ (dumpString k2 ++ ':' :: ' '
                :: (dumpJson v2 (lvl + 1) ++ (dumpObjRest kvs (lvl + 1)
                  ++ (nlIndent lvl ++ ('\x7d' :: rest)))))) := by
            simp [dumpObjRest, List.append_assoc]
          have h3 : skipWs (dumpObjRest ((k2, v2) :: kvs) (lvl + 1)
                ++ (nlIndent lvl ++ ('\x7d' :: rest)))
              = ',' :: (nlIndent (lvl + 1) ++ (dumpString k2 ++ ':' :: ' '
                :: (dumpJson v2 (lvl + 1) ++ (dumpObjRest kvs (lvl + 1)
                  ++ (nlIndent lvl ++ ('\x7d' :: rest)))))) := by
            rw [htail]
            exact skipWs_nonws (by decide) _
          have hds : dictSet acc k v = acc ++ [(k, v)] :=
            dictSet_append v (fun p hp => hdisj p hp (k, v) (List.mem_cons_self ..))
          rw [scanObjItems_comma f acc hkey h1 hval h3,
            scanObjItems_ws (nlIndent_ws (lvl + 1))]
          have hform : dumpString k2 ++ ':' :: ' '
                :: (dumpJson v2 (lvl + 1) ++ (dumpObjRest kvs (lvl + 1)
                  ++ (nlIndent lvl ++ ('\x7d' :: rest))))
              = '"' :: (escString k2.data ++ ('"' :: (':' :: ' '
                :: (dumpJson v2 (lvl + 1) ++ (dumpObjRest kvs (lvl + 1)
                  ++ (nlIndent lvl ++ ('\x7d' :: rest))))))) := by
            simp [dumpString, List.append_assoc]
          rw [hform]
          have hdisj2 : ∀ p ∈ dictSet acc k v, ∀ q ∈ (k2, v2) :: kvs, p.1 ≠ q.1 := by
            intro p hp q hq
            rw [hds] at hp
            rcases List.mem_append.mp hp with hp1 | hp2
            · exact hdisj p hp1 q (List.mem_cons_of_mem _ hq)
            · have hpv : p = (k, v) := by simpa using hp2
              rw [hpv]
              exact fun hcon => hknot q hq hcon.symm
          have hrec := rt_obj k2 v2 kvs lvl f (dictSet acc k v) rest hsv2.1 hsv2.2 hnd2 hdisj2
            (by rw [hlen, nlIndent_length] at hf; omega)
          rw [hrec, hds]
          simp
termination_by _ v kvs _ _ _ _ _ _ _ _ _ => sizeOf v + sizeOf kvs
end

/-- Parsing the dumped text of any string-leaved value recovers it exactly. -/
theorem json_loads_dumps (v : Json) (h : stringyB v = true) :
    json_loads (json_dumps v) = some v := by
  have hv := rt_val v 0 ((dumpJson v 0).length + 1) [] h (by omega)
  rw [List.append_nil] at hv
  simp only [json_loads, json_dumps, hv]
  rfl

/-! ### Shared helper lemmas -/

theorem stringyB_mkRecord (a b c d e f g h i : String) :
    stringyB (mkRecord a b c d e f g h i) = true := by
  simp [mkRecord, stringyB, stringyPairsB, keysNodupB]

theorem stringyB_toJson (r : TrialRecord) : stringyB r.toJson = true :=
  stringyB_mkRecord ..

theorem stringyListB_map_toJson (rs : List TrialRecord) :
    stringyListB (rs.map TrialRecord.toJson) = true := by
  induction rs with
  | nil => rfl
  | cons r rs ih => simp [stringyListB, stringyB_toJson, ih]

theorem stringyB_arr_map_toJson (rs : List TrialRecord) :
    stringyB (.arr (rs.map TrialRecord.toJson)) = true := by
  simp [stringyB, stringyListB_map_toJson]

/-- Distinct records serialize to distinct dicts. -/
theorem TrialRecord.toJson_inj : Function.Injective TrialRecord.toJson := by
  intro r1 r2 h
  simp only [TrialRecord.toJson, mkRecord, Json.obj.injEq, List.cons.injEq,
    Prod.mk.injEq, Json.str.injEq, true_and, and_true] at h
  obtain ⟨h1, h2, h3, h4, h5, h6, h7, h8, h9⟩ := h
  cases r1; cases r2
  simp_all

/-- Every scraped element dict collapses to the keyword placeholder under
`normalize_trial_data` (the sample schema finds none of the scraped keys
except `condition` and `status`). -/
theorem normalize_euScrapedTrial (keyword : String) (count : Nat) (title : String) :
    normalize_trial_data (euScrapedTrial keyword count title) = euProdRecord keyword := rfl

theorem euScrapeLoop_mem (keyword : String) :
    ∀ (es : List EuElement) (count : Nat) (t : List (String × Json)),
      t ∈ euScrapeLoop keyword es count →
      normalize_trial_data t = euProdRecord keyword := by
  intro es
  induction es with
  | nil => intro count t ht; simp [euScrapeLoop] at ht
  | cons e es ih =>
      intro count t ht
      simp only [euScrapeLoop, List.mem_cons] at ht
      rcases ht with rfl | ht
      · exact normalize_euScrapedTrial ..
      · exact ih (count + 1) t ht

/-- Every record of a production EU fetch is the keyword placeholder. -/
theorem fetch_eu_prod_placeholder (keyword : String) (elems : List EuElement) (r : Json)
    (hr : r ∈ fetch_eu_trials keyword false (.page elems)) : r = euProdRecord keyword := by
  by_cases h0 : keyword = "" ∨ pyStrip keyword = ""
  · simp [fetch_eu_trials, h0] at hr
  · simp only [fetch_eu_trials, h0, if_false, Bool.false_eq_true,
      attempt_real_eu_scraping] at hr
    split at hr
    · simp at hr
    · rcases List.mem_map.mp hr with ⟨t, ht, rfl⟩
      exact euScrapeLoop_mem keyword _ 0 t ht

/-- The date-range loop on an all-dict list keeps exactly the records
`dateKeep` accepts. -/
theorem dateStage_all_obj (lo hi : PyDate) : ∀ signals : List Json,
    (∀ j ∈ signals, ∃ kvs, j = Json.obj kvs) →
    dateStage lo hi signals = some (signals.filter fun s =>
      match s with | .obj kvs => dateKeep lo hi kvs | _ => true) := by
  intro signals
  induction signals with
  | nil => intro _; rfl
  | cons s ss ih =>
      intro h
      obtain ⟨kvs, rfl⟩ := h s (List.mem_cons_self ..)
      have hss := ih (fun j hj => h j (List.mem_cons_of_mem _ hj))
      by_cases hk : dateKeep lo hi kvs
      · simp [dateStage, hss, List.filter_cons, hk]
      · simp [dateStage, hss, List.filter_cons, hk]

/-! ## The claims -/

/-- C1, as written, is refuted: `save_to_json` performs no
rename/replace operation at all — it truncates the target in place and then
writes into it.  The truncated-empty intermediate state is part of the trace;
it is not parseable JSON, so a crash between the truncation and the write
leaves the previously valid persisted collection (here one holding
`sampleRecOld`, which loads back fine) replaced by content that loads as
nothing. -/
theorem c1_counterexample :
    ((save_to_json_ops (Json.arr [sampleRecNew]) "knowledge_base.json").all
        (fun op => !op.isReplace)) = true ∧
    FileState.content "" ∈ save_to_json_states (Json.arr [sampleRecNew]) ∧
    load_signals (FileState.content "") = [] ∧
    json_loads "" = none ∧
    load_signals (save_to_json (Json.arr [sampleRecOld])) = [sampleRecOld] := by
  refine ⟨rfl, ?_, rfl, rfl, rfl⟩
  simp [save_to_json_states]

/-- C1 amended: what `save_to_json` actually does, for every record sequence
and filename — open-truncate then write, never a temporary-file replace; the
truncated-empty state is on the trace and is not valid JSON; the final state
is the serialization. -/
theorem c1_amended (data : Json) (filename : String) :
    save_to_json_ops data filename
      = [FsOp.openTruncate filename, FsOp.writeAll filename (json_dumps data)] ∧
    ((save_to_json_ops data filename).all fun op => !op.isReplace) = true ∧
    FileState.content "" ∈ save_to_json_states data ∧
    (save_to_json_states data).getLast? = some (save_to_json data) ∧
    json_loads "" = none := by
  refine ⟨rfl, rfl, ?_, rfl, rfl⟩
  simp [save_to_json_states]

/-- C2, as written, is refuted: two production fetches over pages with
entirely different scraped content return the very same record list, and that
record is a fabricated placeholder — empty id, title "Unknown EU Trial",
empty sponsor — in production behavior (`use_sample = false`). -/
theorem c2_counterexample :
    fetch_eu_trials "medtech" false (.page [⟨some "Alpha Device Study", none⟩])
      = fetch_eu_trials "medtech" false (.page [⟨some "Beta Implant Study", none⟩]) ∧
    fetch_eu_trials "medtech" false (.page [⟨some "Alpha Device Study", none⟩])
      = [euProdRecord "medtech"] ∧
    jVal (euProdRecord "medtech") "title" = .str "Unknown EU Trial" ∧
    jVal (euProdRecord "medtech") "id" = .str "" ∧
    jVal (euProdRecord "medtech") "sponsor" = .str "" :=
  ⟨rfl, rfl, rfl, rfl, rfl⟩

/-- C2 amended: in production behavior every record `fetch_eu_trials` returns
is the keyword-derived placeholder `euProdRecord keyword` — independent of the
fetched page content — because `attempt_real_eu_scraping` re-normalizes its
scraped dicts under the sample-data schema, whose keys the scraped dicts do
not carry. -/
theorem c2_amended (keyword : String) (elems : List EuElement) (r : Json)
    (hr : r ∈ fetch_eu_trials keyword false (.page elems)) :
    r = euProdRecord keyword ∧ jVal (euProdRecord keyword) "id" = .str "" ∧
    jVal (euProdRecord keyword) "title" = .str "Unknown EU Trial" :=
  ⟨fetch_eu_prod_placeholder keyword elems r hr, rfl, rfl⟩

/-- Witness for the amended C2 at a concrete page. -/
theorem c2_amended_witness :
    (euProdRecord "medtech" ∈
      fetch_eu_trials "medtech" false (.page [⟨some "Alpha Device Study", none⟩])) ∧
    (euProdRecord "medtech" = euProdRecord "medtech" ∧
     jVal (euProdRecord "medtech") "id" = .str "" ∧
     jVal (euProdRecord "medtech") "title" = .str "Unknown EU Trial") :=
  have hmem : euProdRecord "medtech" ∈
      fetch_eu_trials "medtech" false (.page [⟨some "Alpha Device Study", none⟩]) := by
    rw [show fetch_eu_trials "medtech" false (.page [⟨some "Alpha Device Study", none⟩])
        = [euProdRecord "medtech"] from rfl]
    exact List.mem_cons_self ..
  ⟨hmem, c2_amended "medtech" _ _ hmem⟩

/-- C3, as written, is refuted: the refresh handler does not merge at all.
With a persisted collection holding the record `{id: "X", sponsor: "Acme"}`
and an incoming fetch carrying `{id: "X", sponsor: "Unknown"}` — the incoming
record strictly *less* populated, so the claim says the existing one is kept —
the persisted result after the refresh is exactly the incoming list: the
existing record is gone and the placeholder sponsor "Unknown" won. -/
theorem c3_counterexample :
    load_signals (refresh_step (save_to_json (Json.arr [sampleRecOld])) [sampleRecNew] [])
      = [sampleRecNew] ∧
    jVal sampleRecOld "id" = jVal sampleRecNew "id" ∧
    jVal sampleRecOld "sponsor" = .str "Acme" ∧
    jVal sampleRecNew "sponsor" = .str "Unknown" ∧
    sampleRecOld ∉ [sampleRecNew] := by
  refine ⟨rfl, rfl, rfl, rfl, ?_⟩
  intro h
  have h2 := List.mem_singleton.mp h
  simp [sampleRecOld, sampleRecNew, mkRecord] at h2

/-- C3 amended: a refresh with a non-empty combined fetch result *replaces*
the persisted collection with exactly `clinical ++ eu` (Client A's records
then Client B's, duplicates and conflicts untouched); an empty combined
result leaves the previous file as it was. -/
theorem c3_amended (old : FileState) (clinical eu : List Json) :
    (clinical ++ eu = [] → refresh_step old clinical eu = old) ∧
    (clinical ++ eu ≠ [] → stringyB (.arr (clinical ++ eu)) = true →
      load_signals (refresh_step old clinical eu) = clinical ++ eu) := by
  constructor
  · intro h
    simp [refresh_step, refresh_all_trials, h]
  · intro hne hs
    have hiso : ¬ (clinical ++ eu).isEmpty := by
      simp [List.isEmpty_iff, hne]
    have h := json_loads_dumps (Json.arr (clinical ++ eu)) hs
    simp [refresh_step, refresh_all_trials, hiso, save_to_json, load_signals, h]

/-- Witness for the amended C3 at a concrete refresh. -/
theorem c3_amended_witness :
    (([sampleRecNew] : List Json) ++ [] = [] → refresh_step .absent [sampleRecNew] [] = .absent) ∧
    (([sampleRecNew] : List Json) ++ [] ≠ []) ∧
    stringyB (Json.arr (([sampleRecNew] : List Json) ++ [])) = true ∧
    load_signals (refresh_step .absent [sampleRecNew] []) = [sampleRecNew] ++ [] :=
  have hne : ([sampleRecNew] : List Json) ++ [] ≠ [] := by simp
  have hs : stringyB (Json.arr (([sampleRecNew] : List Json) ++ [])) = true := by
    simp [sampleRecNew, stringyB, stringyListB, mkRecord, stringyPairsB, keysNodupB]
  ⟨(c3_amended .absent [sampleRecNew] []).1, hne, hs,
    (c3_amended .absent [sampleRecNew] []).2 hne hs⟩

/-- C4, as written, is refuted: a refresh that persists the production EU
fetch of a two-element page stores two records that *both* have the empty
string as id — ids neither non-empty nor unique. -/
theorem c4_counterexample :
    load_signals (refresh_step .absent []
        (fetch_eu_trials "medtech" false
          (.page [⟨some "Trial One", none⟩, ⟨none, some "Trial Two"⟩])))
      = [euProdRecord "medtech", euProdRecord "medtech"] ∧
    jVal (euProdRecord "medtech") "id" = .str "" :=
  ⟨rfl, rfl⟩

/-- C4 amended: no dedup or id validation happens anywhere on the refresh
path — every persisted record is either one of Client A's records, unchanged,
or an EU placeholder whose id is the empty string. -/
theorem c4_amended (clinical : List Json) (keyword : String) (elems : List EuElement)
    (r : Json)
    (hr : r ∈ refresh_all_trials clinical (fetch_eu_trials keyword false (.page elems))) :
    r ∈ clinical ∨ jVal r "id" = .str "" := by
  simp only [refresh_all_trials] at hr
  rcases List.mem_append.mp hr with h | h
  · exact Or.inl h
  · right
    rw [fetch_eu_prod_placeholder keyword elems r h]
    rfl

/-- Witness for the amended C4 at a concrete refresh input. -/
theorem c4_amended_witness :
    (euProdRecord "medtech" ∈ refresh_all_trials []
        (fetch_eu_trials "medtech" false (.page [⟨some "Trial One", none⟩]))) ∧
    (euProdRecord "medtech" ∈ ([] : List Json) ∨
      jVal (euProdRecord "medtech") "id" = .str "") :=
  have hmem : euProdRecord "medtech" ∈ refresh_all_trials []
      (fetch_eu_trials "medtech" false (.page [⟨some "Trial One", none⟩])) := by
    rw [show refresh_all_trials []
          (fetch_eu_trials "medtech" false (.page [⟨some "Trial One", none⟩]))
        = [euProdRecord "medtech"] from rfl]
    exact List.mem_cons_self ..
  ⟨hmem, c4_amended [] "medtech" _ _ hmem⟩

/-- C5, as written, is refuted on its second half: a network-level failure is
not surfaced as a distinguishable condition — `fetch_eu_trials` catches the
re-raised exception and returns `[]`, the very value an empty result page
produces.  (The first half is true: an empty page yields `[]` silently.) -/
theorem c5_counterexample :
    fetch_eu_trials "medtech" false .netError = [] ∧
    fetch_eu_trials "medtech" false (.page []) = [] ∧
    attempt_real_eu_scraping "medtech" .netError = .error "Network error accessing EU CTR" :=
  ⟨rfl, rfl, rfl⟩

/-- C5 amended: for every keyword, an empty result page yields `[]` silently,
and a network failure yields the *same* `[]` — the inner
`attempt_real_eu_scraping` does re-raise on network errors, but the public
entry point swallows that and the two conditions are indistinguishable to the
caller. -/
theorem c5_amended (keyword : String) :
    fetch_eu_trials keyword false (.page []) = [] ∧
    fetch_eu_trials keyword false .netError = [] ∧
    attempt_real_eu_scraping keyword .netError
      = .error "Network error accessing EU CTR" ∧
    fetch_eu_trials keyword false .netError = fetch_eu_trials keyword false (.page []) := by
  have hpage : fetch_eu_trials keyword false (.page []) = [] := by
    by_cases h0 : keyword = "" ∨ pyStrip keyword = "" <;>
      simp [fetch_eu_trials, h0, attempt_real_eu_scraping, euScrapeLoop]
  have hnet : fetch_eu_trials keyword false .netError = [] := by
    by_cases h0 : keyword = "" ∨ pyStrip keyword = "" <;>
      simp [fetch_eu_trials, h0, attempt_real_eu_scraping]
  exact ⟨hpage, hnet, rfl, hnet.trans hpage.symm⟩

/-- C6, as written, is refuted: there is no retry. A single transient network
failure on the first request makes `fetch_trials` return `([], 1)` — one
request issued, nothing retried, nothing accumulated — even though the very
next response on the wire would have produced a record. -/
theorem c6_counterexample :
    fetch_trials "medtech" 50 false [ApiResponse.netError, ApiResponse.ok c6GoodBody]
      = ([], 1) ∧
    fetch_trials "medtech" 50 false [ApiResponse.ok c6GoodBody] = ([c6GoodRec], 1) :=
  ⟨rfl, rfl⟩

/-- C6 amended: on any transient failure of the first request — network
error, non-2xx status, or a body that is not valid JSON — `fetch_trials`
returns the empty list after exactly one request, regardless of what further
responses would have said. -/
theorem c6_amended (keyword : String) (max_records : Nat) (r : ApiResponse)
    (rest : List ApiResponse) (htrim : pyStrip keyword ≠ "") (hr : transientFailure r) :
    fetch_trials keyword max_records false (r :: rest) = ([], 1) := by
  have hcond : ¬(keyword = "" ∨ pyStrip keyword = "") := by
    rintro (rfl | h)
    · exact htrim rfl
    · exact htrim h
  rcases hr with rfl | ⟨c, rfl⟩ | ⟨b, rfl, hb⟩
  · simp [fetch_trials, hcond, nextResp]
  · simp [fetch_trials, hcond, nextResp]
  · simp [fetch_trials, hcond, nextResp, hb]

/-- Witness for the amended C6 at a concrete transient failure. -/
theorem c6_amended_witness :
    pyStrip "medtech" ≠ "" ∧ transientFailure ApiResponse.netError ∧
    fetch_trials "medtech" 50 false [ApiResponse.netError] = ([], 1) :=
  ⟨by decide, Or.inl rfl,
    c6_amended "medtech" 50 ApiResponse.netError [] (by decide) (Or.inl rfl)⟩

/-- C7, as written, is refuted: no CorruptCollection condition exists in
either loader.  The cached loader returns for corrupt content exactly what it
returns for a missing file — a bare empty list, nothing flagged — and the
other loader (app.py) raises on a missing file instead of returning empty. -/
theorem c7_counterexample :
    load_signals_cached (.content "not json") = .arr [] ∧
    load_signals_cached (.content "not json") = load_signals_cached .absent ∧
    app_load_signals .absent = .error "FileNotFoundError" :=
  ⟨rfl, rfl, rfl⟩

/-- C7 amended: for every unparseable content, the cached loader returns the
empty list, indistinguishable from its missing-file result, with no corruption
flag of any kind; the bare loader in app.py raises `JSONDecodeError` on that
content and `FileNotFoundError` on a missing file. -/
theorem c7_amended (s : String) (h : json_loads s = none) :
    load_signals_cached (.content s) = .arr [] ∧
    load_signals_cached (.content s) = load_signals_cached .absent ∧
    app_load_signals (.content s) = .error "JSONDecodeError" ∧
    app_load_signals .absent = .error "FileNotFoundError" := by
  refine ⟨?_, ?_, ?_, rfl⟩ <;> simp [load_signals_cached, app_load_signals, h]

/-- Witness for the amended C7 at the claim's own example content. -/
theorem c7_amended_witness :
    json_loads "not json" = none ∧
    (load_signals_cached (.content "not json") = .arr [] ∧
     load_signals_cached (.content "not json") = load_signals_cached .absent ∧
     app_load_signals (.content "not json") = .error "JSONDecodeError" ∧
     app_load_signals .absent = .error "FileNotFoundError") :=
  ⟨rfl, c7_amended "not json" rfl⟩

/-- C8 confirmed: with the type filter at "All" and no status filter, the
date-range pass keeps exactly the records `dateKeep` accepts; a record whose
start date is absent or unparseable is always kept (`signal_date_decision`
none); for a parseable date the check is `lo ≤ d ∧ d ≤ hi` through
`PyDate.ble`, which is reflexive, so both bounds are inclusive. -/
theorem c8_date_filter_inclusive (lo hi : PyDate) (signals : List Json)
    (hobj : ∀ j ∈ signals, ∃ kvs, j = Json.obj kvs) :
    ∃ out, filter_signals signals "All" none (some (lo, hi)) = some out ∧
      (∀ kvs, (Json.obj kvs ∈ out ↔ Json.obj kvs ∈ signals ∧ dateKeep lo hi kvs = true)) ∧
      (∀ kvs, signal_date_decision kvs = none → dateKeep lo hi kvs = true) ∧
      (∀ kvs d, signal_date_decision kvs = some d →
        (dateKeep lo hi kvs = true ↔ (lo.ble d = true ∧ d.ble hi = true))) ∧
      (∀ d : PyDate, d.ble d = true) := by
  have hds := dateStage_all_obj lo hi signals hobj
  by_cases hemp : signals.isEmpty
  · rw [List.isEmpty_iff] at hemp
    subst hemp
    refine ⟨[], rfl, ?_, ?_, ?_, ?_⟩
    · intro kvs; simp
    · intro kvs h; simp [dateKeep, h]
    · intro kvs d h; simp [dateKeep, h, Bool.and_eq_true]
    · intro d; simp [PyDate.ble]
  · refine ⟨signals.filter fun s => match s with | .obj kvs => dateKeep lo hi kvs | _ => true,
      ?_, ?_, ?_, ?_, ?_⟩
    · simp only [filter_signals, hemp, if_false, Bool.false_eq_true, ne_eq,
        not_true_eq_false, reduceIte, Option.bind_eq_bind, Option.some_bind, hds]
    · intro kvs
      rw [List.mem_filter]
    · intro kvs h; simp [dateKeep, h]
    · intro kvs d h; simp [dateKeep, h, Bool.and_eq_true]
    · intro d; simp [PyDate.ble]

/-- Witness for C8 on a concrete collection: one parseable in-range date, one
record without a date. -/
theorem c8_witness :
    (∀ j ∈ [Json.obj [("start_date", Json.str "2024-06-15")],
            Json.obj [("title", Json.str "n")]], ∃ kvs, j = Json.obj kvs) ∧
    (∃ out, filter_signals [Json.obj [("start_date", Json.str "2024-06-15")],
        Json.obj [("title", Json.str "n")]] "All" none
        (some (⟨2024, 1, 1⟩, ⟨2024, 12, 31⟩)) = some out ∧
      (∀ kvs, (Json.obj kvs ∈ out ↔
        Json.obj kvs ∈ [Json.obj [("start_date", Json.str "2024-06-15")],
          Json.obj [("title", Json.str "n")]] ∧
        dateKeep ⟨2024, 1, 1⟩ ⟨2024, 12, 31⟩ kvs = true)) ∧
      (∀ kvs, signal_date_decision kvs = none →
        dateKeep ⟨2024, 1, 1⟩ ⟨2024, 12, 31⟩ kvs = true) ∧
      (∀ kvs d, signal_date_decision kvs = some d →
        (dateKeep ⟨2024, 1, 1⟩ ⟨2024, 12, 31⟩ kvs = true ↔
          ((⟨2024, 1, 1⟩ : PyDate).ble d = true ∧ d.ble ⟨2024, 12, 31⟩ = true))) ∧
      (∀ d : PyDate, d.ble d = true)) :=
  have hobj : ∀ j ∈ [Json.obj [("start_date", Json.str "2024-06-15")],
      Json.obj [("title", Json.str "n")]], ∃ kvs, j = Json.obj kvs := by
    intro j hj
    fin_cases hj <;> exact ⟨_, rfl⟩
  ⟨hobj, c8_date_filter_inclusive ⟨2024, 1, 1⟩ ⟨2024, 12, 31⟩ _ hobj⟩

/-- C9 confirmed: saving any sequence of TrialRecords and loading it back
returns exactly the saved sequence, in order — the serialized dicts round-trip
through the writer and parser, and the dict form determines the record
(`TrialRecord.toJson` is injective), so nothing is lost, reordered or
altered. -/
theorem c9_round_trip (rs : List TrialRecord) :
    load_signals (save_to_json (Json.arr (rs.map TrialRecord.toJson)))
      = rs.map TrialRecord.toJson ∧
    ∀ rs2 : List TrialRecord,
      rs.map TrialRecord.toJson = rs2.map TrialRecord.toJson → rs = rs2 := by
  constructor
  · have h := json_loads_dumps (Json.arr (rs.map TrialRecord.toJson))
      (stringyB_arr_map_toJson rs)
    simp [save_to_json, load_signals, h]
  · intro rs2 h
    exact List.map_injective_iff.mpr TrialRecord.toJson_inj h

/-- Witness for C9 at a concrete one-record collection. -/
theorem c9_witness :
    load_signals (save_to_json (Json.arr ([sampleTR].map TrialRecord.toJson)))
      = [sampleTR].map TrialRecord.toJson ∧ [sampleTR] = [sampleTR] :=
  ⟨(c9_round_trip [sampleTR]).1, (c9_round_trip [sampleTR]).2 [sampleTR] rfl⟩

/-- C10 confirmed: `ask_roo` always returns a string — every input shape for
`signals` (None, a non-list, a list with arbitrary entries) and every failure
(missing or empty API key, a formatter error, an exception from the LLM call)
lands in the catch-all handler's apology string; the only other outcome is the
text the LLM replied with. -/
theorem c10_ask_roo_total (secrets : SecretsState) (llm : String → LlmOutcome)
    (prompt : String) (signals : SignalsArg) (max_signals : Nat) :
    (∃ m, ask_roo secrets llm prompt signals max_signals = roo_error m) ∨
    (∃ q t, llm q = LlmOutcome.reply t ∧
      ask_roo secrets llm prompt signals max_signals = t) := by
  unfold ask_roo
  split
  · exact Or.inl ⟨_, rfl⟩
  · split
    · exact Or.inl ⟨_, rfl⟩
    · split
      · exact Or.inl ⟨_, rfl⟩
      · rename_i t heq
        exact Or.inr ⟨_, t, heq, rfl⟩
